import Mathlib

/-! # ZenTimer: the `PomodoroTimer` class of `src/app.js`

A shallow embedding of the timer engine.  The object's fields and the parts of the
browser it talks to (interval timers, `localStorage`, the Notification and Web Audio
interfaces, the text it writes into the page) are the fields of one `State`; every
method is a function on `State`, written statement by statement after the source.

Modelling conventions
* A JavaScript number is an integer or `NaN` (`Num`).  The arithmetic of the engine
  (`--`, `++`, `* 60`, `%`, `Math.floor`) and the texts it writes to the page are those
  of exact integers, which is what the doubles of the program give up to `2^53`; the
  sign of zero is not modelled.  Where a text is turned into a number or stored to be
  read back (`parseInt`, the stored count) the rounding to a double and the text
  `toString()` writes beyond `2^53` are modelled (`roundToDouble`, `Num.numberText`).
* `setInterval` hands out fresh identifiers; `timers` lists the intervals the browser
  still fires.  The interval callback is `tick`; `fire id` runs it for an active timer.
* What the program writes to the page, and the notifications and tones it asks for,
  are appended to `effects` in program order.
* The five inputs of the settings panel are read by `saveSettings` only; the values
  they hold when the save button is clicked are its argument (`Form`).
* The answer of the `confirm` dialog of `switchMode` is its argument `confirmed`.
-/

namespace ZenTimer

/-! ## Values -/

/-- A JavaScript number as this program computes it: an integer or `NaN`. -/
inductive Num where
  | int (i : Int)
  | nan
  deriving DecidableEq, Repr

namespace Num

/-- The value of `x - 1`, written `x--` in the source. -/
def dec : Num → Num
  | int i => int (i - 1)
  | nan => nan

/-- The value of `x + 1`, written `x++` in the source. -/
def inc : Num → Num
  | int i => int (i + 1)
  | nan => nan

/-- The test `x <= 0`; every comparison with `NaN` is false. -/
def leZero : Num → Bool
  | int i => decide (i ≤ 0)
  | nan => false

/-- The test `x % 4 === 0`; `%` is the remainder of truncated division. -/
def mod4IsZero : Num → Bool
  | int i => decide (i.tmod 4 = 0)
  | nan => false

/-- The decimal digits of `x`: the text of `x.toString()` for every integer up to `2^53`
in absolute value, and the text the page is modelled to show.  `Num.numberText` is
the text of `x.toString()` beyond that. -/
def toText : Num → String
  | int i => toString i
  | nan => "NaN"

/-- The value of `Math.floor(x / 60)`. -/
def floorDiv60 : Num → Num
  | int i => int (i.fdiv 60)
  | nan => nan

/-- The value of `x % 60`. -/
def rem60 : Num → Num
  | int i => int (i.tmod 60)
  | nan => nan

/-- The order `a <= b` on numbers, false as soon as one side is `NaN`. -/
def le : Num → Num → Prop
  | int a, int b => a ≤ b
  | _, _ => False

instance : LE Num := ⟨Num.le⟩

instance (a b : Num) : Decidable (a ≤ b) :=
  match a, b with
  | int a, int b => inferInstanceAs (Decidable (a ≤ b))
  | int _, nan => isFalse (fun h => h)
  | nan, _ => isFalse (fun h => by cases h)

end Num

/-! ## Doubles and their text -/

/-- The integer a double holds for the natural number `v`: `v` itself up to `2^53`, and
beyond that the nearest number with 53 significant bits, the even one of two that are
equally near.  The overflow to `Infinity` from `2^1024` on is not modelled. -/
def roundToDouble (v : Nat) : Nat :=
  if v ≤ 9007199254740992 then v
  else
    let e := (Nat.toDigits 2 v).length - 53
    let q := v / 2 ^ e
    let r := v % 2 ^ e
    let up := decide (2 ^ (e - 1) < r) || (decide (r = 2 ^ (e - 1)) && decide (q % 2 = 1))
    (if up then q + 1 else q) * 2 ^ e

/-- The decimal number `toString()` writes for the double `v`: the one with the fewest
significant digits that rounds to `v`, the nearer one of two, the even one of two that
are equally near.  A number that no double holds is left as it is. -/
def shortestDecimal (v : Nat) : Nat :=
  let len := (toString v).length
  let found := (List.range 17).findSome? fun j =>
    let p := 10 ^ (len - (j + 1))
    let lo := v / p * p
    let hi := lo + p
    if j + 1 > len then none
    else if roundToDouble lo = v ∧ roundToDouble hi = v then
      some (if v - lo < hi - v then lo
        else if hi - v < v - lo then hi
        else if v / p % 2 = 0 then lo else hi)
    else if roundToDouble lo = v then some lo
    else if roundToDouble hi = v then some hi
    else none
  found.getD v

/-- The digits of a number without the zeros at its end. -/
def trimZeros (ds : List Char) : List Char :=
  (ds.reverse.dropWhile (fun c => c == '0')).reverse

/-- The text `toString()` writes for the decimal number `w`: all its digits when they are
at most 21, and from `10^21` on the first digit, the other significant digits after a
point, and the exponent. -/
def exponentText (w : Nat) : String :=
  let ds := (toString w).toList
  if ds.length ≤ 21 then String.mk ds
  else
    match trimZeros ds with
    | [] => "0"
    | c :: rest =>
      String.mk (c :: (if rest.isEmpty then [] else '.' :: rest)) ++ "e+" ++
        toString (ds.length - 1)

/-- The text of `x.toString()` for every integer a double holds: the decimal digits up
to `2^53`, beyond that the shortest digits that read back as the same double, in
exponent form from `10^21` on. -/
def Num.numberText : Num → String
  | .int i =>
    if i.natAbs ≤ 9007199254740992 then toString i
    else (if i < 0 then "-" else "") ++ exponentText (shortestDecimal i.natAbs)
  | .nan => "NaN"

/-- A number on which the exact integers of the model and the doubles of the program
agree: `NaN`, or an integer up to `2^53` in absolute value. -/
def Num.isSafe : Num → Prop
  | .int i => i.natAbs ≤ 9007199254740992
  | .nan => True

instance (x : Num) : Decidable x.isSafe :=
  match x with
  | .int i => inferInstanceAs (Decidable (i.natAbs ≤ 9007199254740992))
  | .nan => isTrue trivial

/-- The value of a duration field of the settings object: a number, or `null` as
`JSON.parse` returns it for a field that was `NaN` when it was stringified. -/
inductive Duration where
  | num (n : Num)
  | null
  deriving DecidableEq, Repr

/-- The value of `d * 60`: `null` converts to 0, `NaN` stays `NaN`. -/
def Duration.times60 : Duration → Num
  | .num (.int i) => .int (i * 60)
  | .num .nan => .nan
  | .null => .int 0

/-- The object `this.settings`. -/
structure Settings where
  pomodoroTime : Duration
  shortBreakTime : Duration
  longBreakTime : Duration
  soundEnabled : Bool
  notificationEnabled : Bool
  deriving DecidableEq, Repr

/-- The default settings of the constructor (source lines 5-11). -/
def defaultSettings : Settings :=
  { pomodoroTime := .num (.int 25)
    shortBreakTime := .num (.int 5)
    longBreakTime := .num (.int 15)
    soundEnabled := true
    notificationEnabled := true }

/-! ## localStorage -/

/-- The object `JSON.parse` returns for the stored settings text, cut down to the five
properties the program reads: `none` is a property the object does not have.  A parsed
value without any of them (a number, `null`, an empty object) is the all-`none` case.
Present properties are taken to hold values of the types `saveToStorage` writes. -/
structure SavedSettings where
  pomodoroTime : Option Duration
  shortBreakTime : Option Duration
  longBreakTime : Option Duration
  soundEnabled : Option Bool
  notificationEnabled : Option Bool
  deriving DecidableEq, Repr

/-- A text stored under the key `pomodoroSettings`, described by what the program can
observe of it: whether it is empty, and what `JSON.parse` does with it. -/
inductive SettingsText where
  | empty
  | malformed
  | object (o : SavedSettings)
  deriving DecidableEq, Repr

/-- The two keys of `localStorage` the program uses; `none` is a key that is not set
(`getItem` returns `null`). -/
structure Storage where
  pomodoroSettings : Option SettingsText
  pomodoroCount : Option String
  deriving DecidableEq, Repr

/-- The value `JSON.stringify` followed by `JSON.parse` gives a duration: `NaN` is
written as `null`. -/
def jsonDuration : Duration → Duration
  | .num (.int i) => .num (.int i)
  | .num .nan => .null
  | .null => .null

/-- The text `JSON.stringify(this.settings)`, as the object it parses back to. -/
def stringifySettings (t : Settings) : SettingsText :=
  .object
    { pomodoroTime := some (jsonDuration t.pomodoroTime)
      shortBreakTime := some (jsonDuration t.shortBreakTime)
      longBreakTime := some (jsonDuration t.longBreakTime)
      soundEnabled := some t.soundEnabled
      notificationEnabled := some t.notificationEnabled }

/-- The object spread `{ ...settings, ...saved }`: a property of `saved` that is present
overrides, an absent one keeps the value of `settings`. -/
def mergeSettings (t : Settings) (o : SavedSettings) : Settings :=
  { pomodoroTime := o.pomodoroTime.getD t.pomodoroTime
    shortBreakTime := o.shortBreakTime.getD t.shortBreakTime
    longBreakTime := o.longBreakTime.getD t.longBreakTime
    soundEnabled := o.soundEnabled.getD t.soundEnabled
    notificationEnabled := o.notificationEnabled.getD t.notificationEnabled }

/-! ## parseInt -/

/-- White space and line terminators that `parseInt` skips at the start of its input. -/
def isStrWhiteSpace (c : Char) : Bool :=
  [0x9, 0xA, 0xB, 0xC, 0xD, 0x20, 0xA0, 0x1680, 0x2000, 0x2001, 0x2002, 0x2003, 0x2004,
    0x2005, 0x2006, 0x2007, 0x2008, 0x2009, 0x200A, 0x2028, 0x2029, 0x202F, 0x205F,
    0x3000, 0xFEFF].contains c.toNat

/-- The value of a character as a digit, letters counting from ten. -/
def digitValue (c : Char) : Option Nat :=
  if 48 ≤ c.toNat ∧ c.toNat ≤ 57 then some (c.toNat - 48)
  else if 97 ≤ c.toNat ∧ c.toNat ≤ 122 then some (c.toNat - 87)
  else if 65 ≤ c.toNat ∧ c.toNat ≤ 90 then some (c.toNat - 55)
  else none

/-- The digits of the longest run of radix-`r` digits at the start of `cs`. -/
def leadingDigits (r : Nat) : List Char → List Nat
  | [] => []
  | c :: cs =>
    match digitValue c with
    | some d => if d < r then d :: leadingDigits r cs else []
    | none => []

/-- The builtin `parseInt(text)` with no radix argument: skip white space, read a sign,
read a `0x` or `0X` mark (radix 16, else 10), read digits; `NaN` when there is none,
else the double nearest to the number the digits write. -/
def parseInt (text : String) : Num :=
  let cs := text.toList.dropWhile isStrWhiteSpace
  let neg := cs.head? = some '-'
  let cs := match cs with
    | '-' :: r => r
    | '+' :: r => r
    | r => r
  let radix := match cs with
    | '0' :: 'x' :: _ => 16
    | '0' :: 'X' :: _ => 16
    | _ => 10
  let cs := match cs with
    | '0' :: 'x' :: r => r
    | '0' :: 'X' :: r => r
    | r => r
  let ds := leadingDigits radix cs
  if ds.isEmpty then .nan
  else
    let v : Int := (roundToDouble (ds.foldl (fun a d => a * radix + d) 0) : Nat)
    .int (if neg then -v else v)

/-! ## The engine and its host -/

/-- The value of `Notification.permission`. -/
inductive Permission where
  | default
  | granted
  | denied
  deriving DecidableEq, Repr

/-- Something the program does to the page or asks of the browser. -/
inductive Effect where
  /-- The text written to `startPauseBtn.textContent`. -/
  | startPauseText (text : String)
  /-- The value written to `modeText.textContent`; `none` is `undefined`. -/
  | modeText (text : Option String)
  /-- The text written to `timerDisplay.textContent`. -/
  | timerDisplay (text : String)
  /-- The text written to `document.title`. -/
  | title (text : String)
  /-- The text `pomodoroCount.textContent` shows after a number is assigned to it. -/
  | countText (text : String)
  /-- The mode buttons get their `active` class toggled for this mode. -/
  | modeBtnsActive (mode : String)
  /-- The container class is set to `container mode-` and this mode in lower case. -/
  | containerClass (mode : String)
  /-- The settings panel is filled with the values of these settings. -/
  | panelValues (values : Settings)
  /-- The class `show` of the settings panel is toggled. -/
  | panelToggle
  /-- The class `show` of the settings panel is removed. -/
  | panelHide
  /-- The call `Notification.requestPermission()`. -/
  | permissionRequest
  /-- The system notification of `new Notification(title, ...)`. -/
  | notification (title body : String)
  /-- The tone of the oscillator: 800 Hz sine, half a second, decaying gain. -/
  | tone
  /-- An uncaught `TypeError`: neither `AudioContext` nor `webkitAudioContext` exists. -/
  | typeError
  deriving DecidableEq, Repr

/-- The five inputs of the settings panel as `saveSettings` reads them: the `value` of
the three number inputs and the `checked` of the two boxes. -/
structure Form where
  pomodoroTime : String
  shortBreakTime : String
  longBreakTime : String
  soundEnabled : Bool
  notificationEnabled : Bool
  deriving DecidableEq, Repr

/-- The browser around the program when the page loads. -/
structure Host where
  storage : Storage
  /-- Whether `'Notification' in window`. -/
  notificationApi : Bool
  permission : Permission
  /-- Whether `window.AudioContext || window.webkitAudioContext` is defined. -/
  audioApi : Bool
  deriving DecidableEq, Repr

/-- The fields of a `PomodoroTimer` (the first six) and the browser around it. -/
structure State where
  settings : Settings
  currentMode : String
  timeLeft : Num
  isRunning : Bool
  pomodoroCount : Num
  /-- The field `this.interval`: `none` is `null`, else the last identifier of `setInterval`. -/
  interval : Option Nat
  /-- The intervals the browser still fires, oldest first. -/
  timers : List Nat
  /-- The identifier the next `setInterval` returns. -/
  nextTimer : Nat
  storage : Storage
  notificationApi : Bool
  permission : Permission
  audioApi : Bool
  effects : List Effect
  deriving DecidableEq, Repr

/-- Append an effect to the trace. -/
def emit (e : Effect) (s : State) : State :=
  { s with effects := s.effects ++ [e] }

/-- The call `setInterval(callback, 1000)` with its result assigned to `this.interval`. -/
def setInterval (s : State) : State :=
  { s with
    interval := some s.nextTimer
    timers := s.timers ++ [s.nextTimer]
    nextTimer := s.nextTimer + 1 }

/-- The call `clearInterval(this.interval)`; clearing `null` or a stopped timer does nothing. -/
def clearInterval (s : State) : State :=
  match s.interval with
  | some id => { s with timers := s.timers.filter (fun t => t != id) }
  | none => s

/-! ## Methods of `PomodoroTimer` -/

/-- The method `saveToStorage` (source lines 49-52). -/
def saveToStorage (s : State) : State :=
  { s with
    storage :=
      { pomodoroSettings := some (stringifySettings s.settings)
        pomodoroCount := some s.pomodoroCount.numberText } }

/-- The method `getModeTime` (source lines 194-205). -/
def getModeTime (s : State) : Duration :=
  if s.currentMode = "pomodoro" then s.settings.pomodoroTime
  else if s.currentMode = "shortBreak" then s.settings.shortBreakTime
  else if s.currentMode = "longBreak" then s.settings.longBreakTime
  else .num (.int 25)

/-- The switch of `getModeTime` as a function of the settings and the mode it reads. -/
def durationOf (t : Settings) (mode : String) : Duration :=
  if mode = "pomodoro" then t.pomodoroTime
  else if mode = "shortBreak" then t.shortBreakTime
  else if mode = "longBreak" then t.longBreakTime
  else .num (.int 25)

/-- The method `getModeRunningText` (source lines 208-219). -/
def getModeRunningText (s : State) : String :=
  if s.currentMode = "pomodoro" then "专注中..."
  else if s.currentMode = "shortBreak" then "短休息中..."
  else if s.currentMode = "longBreak" then "长休息中..."
  else "运行中"

/-- The method `getModeCompleteText` (source lines 222-233). -/
def getModeCompleteText (s : State) : String :=
  if s.currentMode = "pomodoro" then "番茄完成！"
  else if s.currentMode = "shortBreak" then "短休息结束"
  else if s.currentMode = "longBreak" then "长休息结束"
  else "完成"

/-- The call `text.padStart(2, '0')`. -/
def padStart2 (text : String) : String :=
  String.mk (List.replicate (2 - text.length) '0') ++ text

/-- The string `display` of `updateDisplay` (source lines 237-239). -/
def displayText (timeLeft : Num) : String :=
  padStart2 timeLeft.floorDiv60.toText ++ ":" ++ padStart2 timeLeft.rem60.toText

/-- The method `updateDisplay` (source lines 236-243). -/
def updateDisplay (s : State) : State :=
  let display := displayText s.timeLeft
  emit (.title (display ++ " - 番茄钟")) (emit (.timerDisplay display) s)

/-- The table `modeNames` of `updateModeDisplay`; a key it does not hold gives `undefined`. -/
def modeNames (mode : String) : Option String :=
  if mode = "pomodoro" then some "专注模式"
  else if mode = "shortBreak" then some "短休息"
  else if mode = "longBreak" then some "长休息"
  else none

/-- The method `updateModeDisplay` (source lines 246-253). -/
def updateModeDisplay (s : State) : State :=
  emit (.modeText (modeNames s.currentMode)) s

/-- The method `showNotification` (source lines 278-287). -/
def showNotification (title body : String) (s : State) : State :=
  if !s.settings.notificationEnabled then s
  else if s.notificationApi && s.permission = .granted then emit (.notification title body) s
  else s

/-- The method `playSound` (source lines 256-275); `none` when `new` is applied to
`undefined` and the method leaves by a `TypeError`. -/
def playSound (s : State) : Option State :=
  if !s.settings.soundEnabled then some s
  else if s.audioApi then some (emit .tone s)
  else none

/-- The method `requestNotificationPermission` (source lines 76-80). -/
def requestNotificationPermission (s : State) : State :=
  if s.notificationApi && s.permission = .default then emit .permissionRequest s else s

/-- The method `toggleSettings` (source lines 290-292). -/
def toggleSettings (s : State) : State :=
  emit .panelToggle s

/-- The method `start` (source lines 113-126); the callback it installs is `tick`. -/
def start (s : State) : State :=
  let s := { s with isRunning := true }
  let s := emit (.startPauseText "暂停") s
  let s := emit (.modeText (some (getModeRunningText s))) s
  setInterval s

/-- The method `pause` (source lines 129-134). -/
def pause (s : State) : State :=
  let s := { s with isRunning := false }
  let s := emit (.startPauseText "继续") s
  let s := emit (.modeText (some "已暂停")) s
  clearInterval s

/-- The method `toggleTimer` (source lines 104-110). -/
def toggleTimer (s : State) : State :=
  if s.isRunning then pause s else start s

/-- The method `resetTimer` (source lines 137-143). -/
def resetTimer (s : State) : State :=
  let s := pause s
  let s := { s with timeLeft := (getModeTime s).times60 }
  let s := emit (.startPauseText "开始") s
  let s := updateDisplay s
  updateModeDisplay s

/-- The conditional in the middle of `complete` (source lines 149-162): count the
pomodoro, store the count and pick the notification. -/
def completeCount (s : State) : State :=
  if s.currentMode = "pomodoro" then
    let s := { s with pomodoroCount := s.pomodoroCount.inc }
    let s := emit (.countText s.pomodoroCount.toText) s
    let s := saveToStorage s
    if s.pomodoroCount.mod4IsZero then
      showNotification "番茄完成！" "你已经完成了4个番茄，该休息一下了！" s
    else
      showNotification "番茄完成！" "休息一下吧！" s
  else
    showNotification "休息结束！" "准备开始新的番茄吧！" s

/-- The method `complete` (source lines 146-166).  When `playSound` leaves by a
`TypeError` the last statement is not reached. -/
def complete (s : State) : State :=
  let s := pause s
  let s := completeCount s
  match playSound s with
  | some s => emit (.modeText (some (getModeCompleteText s))) s
  | none => emit .typeError s

/-- The callback of the interval that `start` installs (source lines 118-125). -/
def tick (s : State) : State :=
  let s := { s with timeLeft := s.timeLeft.dec }
  let s := updateDisplay s
  if s.timeLeft.leZero then complete s else s

/-- The method `switchMode` (source lines 169-191); `confirmed` is the answer of the
`confirm` dialog, asked only while the timer runs. -/
def switchMode (mode : String) (confirmed : Bool) (s : State) : State :=
  if s.isRunning && !confirmed then s
  else
    let s := if s.isRunning then pause s else s
    let s := { s with currentMode := mode }
    let s := { s with timeLeft := (getModeTime s).times60 }
    let s := emit (.startPauseText "开始") s
    let s := emit (.modeBtnsActive mode) s
    let s := emit (.containerClass mode) s
    let s := updateDisplay s
    updateModeDisplay s

/-- The settings `saveSettings` builds from the inputs (source lines 296-300). -/
def readForm (form : Form) : Settings :=
  { pomodoroTime := .num (parseInt form.pomodoroTime)
    shortBreakTime := .num (parseInt form.shortBreakTime)
    longBreakTime := .num (parseInt form.longBreakTime)
    soundEnabled := form.soundEnabled
    notificationEnabled := form.notificationEnabled }

/-- The method `saveSettings` (source lines 295-314). -/
def saveSettings (form : Form) (s : State) : State :=
  let s := { s with settings := readForm form }
  let s := saveToStorage s
  let s :=
    if !s.isRunning then
      updateDisplay { s with timeLeft := (getModeTime s).times60 }
    else s
  let s := emit .panelHide s
  showNotification "设置已保存" "你的设置已成功保存！" s

/-- The method `loadFromStorage` (source lines 54-73); `none` when `JSON.parse` throws
a `SyntaxError`, which nothing catches. -/
def loadFromStorage (s : State) : Option State :=
  let loaded : Option State :=
    match s.storage.pomodoroSettings with
    | none => some s
    | some .empty => some s
    | some .malformed => none
    | some (.object o) => some { s with settings := mergeSettings s.settings o }
  loaded.map fun s =>
    let s :=
      match s.storage.pomodoroCount with
      | none => s
      | some text =>
        if text.isEmpty then s
        else
          let s := { s with pomodoroCount := parseInt text }
          emit (.countText s.pomodoroCount.toText) s
    emit (.panelValues s.settings) s

/-- The method `init` (source lines 39-46); `attachEventListeners` changes no field. -/
def init (s : State) : Option State :=
  (loadFromStorage s).map fun s =>
    requestNotificationPermission (updateModeDisplay (updateDisplay s))

/-- The fields the constructor assigns before it calls `init` (source lines 5-18),
in a freshly loaded page. -/
def fresh (h : Host) : State :=
  { settings := defaultSettings
    currentMode := "pomodoro"
    timeLeft := defaultSettings.pomodoroTime.times60
    isRunning := false
    pomodoroCount := .int 0
    interval := none
    timers := []
    nextTimer := 1
    storage := h.storage
    notificationApi := h.notificationApi
    permission := h.permission
    audioApi := h.audioApi
    effects := [] }

/-- The expression `new PomodoroTimer()` (source lines 3-37); `none` when the
constructor leaves by the exception of `loadFromStorage`. -/
def construct (h : Host) : Option State :=
  init (fresh h)

/-! ## Events -/

/-- The interval `id` comes due: its callback runs if the browser still holds the timer. -/
def fire (id : Nat) (s : State) : Option State :=
  if id ∈ s.timers then some (tick s) else none

/-- The interval `id` comes due `n` times in a row. -/
def fireN (id : Nat) : Nat → State → Option State
  | 0, s => some s
  | n + 1, s => (fire id s).bind (fireN id n)

/-- One second passes: every interval held at its start comes due once, oldest first;
one that an earlier callback of the same second cleared stays silent. -/
def elapse (s : State) : State :=
  s.timers.foldl (fun st id => if id ∈ st.timers then tick st else st) s

/-- A call into the engine, or an interval coming due. -/
inductive Op where
  | start
  | pause
  | toggleTimer
  | resetTimer
  | switchMode (mode : String) (confirmed : Bool)
  | saveSettings (form : Form)
  | tick (id : Nat)
  deriving DecidableEq, Repr

/-- The state after an operation; `none` for the tick of an interval that is not held. -/
def step (o : Op) (s : State) : Option State :=
  match o with
  | .start => some (start s)
  | .pause => some (pause s)
  | .toggleTimer => some (toggleTimer s)
  | .resetTimer => some (resetTimer s)
  | .switchMode mode confirmed => some (switchMode mode confirmed s)
  | .saveSettings form => some (saveSettings form s)
  | .tick id => fire id s

/-- The state after a sequence of operations, first to last. -/
def run : List Op → State → Option State
  | [], s => some s
  | o :: os, s => (step o s).bind (run os)

/-! ## Reachable states -/

/-- A duration that is a positive integer number of minutes. -/
def Duration.isPositive : Duration → Prop
  | .num (.int i) => 0 < i
  | _ => False

instance (d : Duration) : Decidable d.isPositive :=
  match d with
  | .num (.int i) => inferInstanceAs (Decidable (0 < i))
  | .num .nan => isFalse (fun h => h)
  | .null => isFalse (fun h => h)

/-- Settings whose three durations are positive integers. -/
def Settings.positive (t : Settings) : Prop :=
  t.pomodoroTime.isPositive ∧ t.shortBreakTime.isPositive ∧ t.longBreakTime.isPositive

instance (t : Settings) : Decidable t.positive :=
  inferInstanceAs (Decidable (_ ∧ _ ∧ _))

/-- Inputs of the settings panel that `parseInt` reads as positive integers. -/
def Form.positive (form : Form) : Prop :=
  (readForm form).positive

instance (form : Form) : Decidable form.positive :=
  inferInstanceAs (Decidable (readForm form).positive)

/-- The states the engine gets to from `s0` by operations that `allowed` admits in the
state they are applied to. -/
inductive Reachable (allowed : Op → State → Prop) (s0 : State) : State → Prop where
  | init : Reachable allowed s0 s0
  | step {s t : State} (o : Op) (before : Reachable allowed s0 s) (ok : allowed o s)
      (next : step o s = some t) : Reachable allowed s0 t

/-- Any operation, with the settings saved with positive integer durations and ticks
taken only while the engine is running. -/
def AnyOp (o : Op) (s : State) : Prop :=
  match o with
  | .saveSettings form => form.positive
  | .tick _ => s.isRunning = true
  | _ => True

instance (o : Op) (s : State) : Decidable (AnyOp o s) := by
  unfold AnyOp; split <;> infer_instance

/-- The state after a sequence of operations, each admitted by `AnyOp` where it is applied. -/
def runAny : List Op → State → Option State
  | [], s => some s
  | o :: os, s => if AnyOp o s then (step o s).bind (runAny os) else none

/-- The operations of `AnyOp` with `start` called the way `toggleTimer` calls it, on an
engine that is not running, and only while at least one second is left. -/
def StartGuarded (o : Op) (s : State) : Prop :=
  match o with
  | .start => s.isRunning = false ∧ Num.int 1 ≤ s.timeLeft
  | .toggleTimer => s.isRunning = true ∨ Num.int 1 ≤ s.timeLeft
  | .saveSettings form => form.positive
  | _ => True

/-- The operations of `AnyOp` with the settings saved only while the engine is not running. -/
def SaveIdle (o : Op) (s : State) : Prop :=
  match o with
  | .saveSettings form => form.positive ∧ s.isRunning = false
  | _ => True

/-- The invariant of a countdown driven through `toggleTimer`: positive settings, an
integer `timeLeft >= 0` that is at least 1 while running, no interval held while idle
and exactly the interval of `this.interval` held while running. -/
def Countdown (s : State) : Prop :=
  s.settings.positive ∧
    (∃ n : Int, s.timeLeft = .int n ∧ 0 ≤ n ∧ (s.isRunning = true → 1 ≤ n)) ∧
    (s.isRunning = false → s.timers = []) ∧
    (s.isRunning = true → ∃ id, s.interval = some id ∧ s.timers = [id])

/-- The invariant of the duration bound: positive settings and `timeLeft` at most the
duration of the current mode in seconds. -/
def Bounded (s : State) : Prop :=
  s.settings.positive ∧ s.timeLeft ≤ (getModeTime s).times60

/-! ## Sample inputs -/

/-- A browser with nothing stored, notifications granted and Web Audio present. -/
def bareHost : Host :=
  { storage := { pomodoroSettings := none, pomodoroCount := none }
    notificationApi := true
    permission := .granted
    audioApi := true }

/-- The settings panel with the focus time edited to one minute. -/
def minuteForm : Form :=
  { pomodoroTime := "1"
    shortBreakTime := "5"
    longBreakTime := "15"
    soundEnabled := true
    notificationEnabled := true }

/-- The operations of a one-minute focus phase run to its end and started again. -/
def restartOps : List Op :=
  [.saveSettings minuteForm, .start] ++ List.replicate 60 (.tick 1) ++ [.start]

/-- The state after `restartOps` on a fresh page with nothing stored. -/
def afterRestart : Option State :=
  (construct bareHost).bind (runAny restartOps)

/-- The engine constructed on a fresh page with nothing stored. -/
def freshPage : State :=
  (construct bareHost).getD (fresh bareHost)

/-- A browser in which the program has stored a focus time of ten minutes. -/
def tenMinuteHost : Host :=
  { storage :=
      { pomodoroSettings :=
          some (stringifySettings { defaultSettings with pomodoroTime := .num (.int 10) })
        pomodoroCount := some "0" }
    notificationApi := true
    permission := .granted
    audioApi := true }

/-- A running focus phase with ten seconds left and the single interval 1. -/
def tenSecondsLeft : State :=
  { start freshPage with timeLeft := .int 10 }

/-- A running focus phase with one second left and the single interval 1. -/
def lastSecond : State :=
  { start freshPage with timeLeft := .int 1 }

/-! ## Reading the trace and the storage; more sample inputs -/

/-- Whether `showNotification` gets to `new Notification`: notifications enabled in the
settings, the interface present and the permission granted. -/
def showsNotifications (s : State) : Bool :=
  s.settings.notificationEnabled && (s.notificationApi && decide (s.permission = .granted))

/-- The system notifications of a trace, as title and body, in order. -/
def notifications : List Effect → List (String × String)
  | [] => []
  | .notification title body :: es => (title, body) :: notifications es
  | _ :: es => notifications es

/-- A browser like `bareHost` but with neither `AudioContext` nor `webkitAudioContext`. -/
def silentHost : Host :=
  { bareHost with audioApi := false }

/-- A running focus phase with one second left in the browser of `silentHost`. -/
def lastSecondSilent : State :=
  { lastSecond with audioApi := false }

/-- The settings `loadFromStorage` leaves: the stored object spread over the settings
it finds, or those settings when nothing, or the empty text, is stored. -/
def loadedSettings (t : Settings) (stored : Option SettingsText) : Settings :=
  match stored with
  | some (.object o) => mergeSettings t o
  | _ => t

/-- The count `loadFromStorage` leaves: `parseInt` of a stored text that is not empty,
or the count it finds when nothing, or the empty text, is stored. -/
def loadedCount (count : Num) (stored : Option String) : Num :=
  match stored with
  | some text => if text.isEmpty then count else parseInt text
  | none => count

/-- The number a list of decimal digit characters writes, most significant digit first. -/
def decimalValue (cs : List Char) : Nat :=
  cs.foldl (fun a c => a * 10 + (c.toNat - 48)) 0

/-- The settings panel with the focus time edited to a hundred minutes. -/
def hundredForm : Form :=
  { pomodoroTime := "100"
    shortBreakTime := "5"
    longBreakTime := "15"
    soundEnabled := true
    notificationEnabled := true }

/-- A browser like `bareHost` in which the text stored as settings is no JSON. -/
def malformedHost : Host :=
  { bareHost with storage := { pomodoroSettings := some .malformed, pomodoroCount := none } }

/-- A browser like `bareHost` in which `text` is stored as the count. -/
def countHost (text : String) : Host :=
  { bareHost with storage := { pomodoroSettings := none, pomodoroCount := some text } }

/-- A browser like `bareHost` that holds what `saveToStorage` wrote in state `s`. -/
def reloadHost (s : State) : Host :=
  { bareHost with storage := (saveToStorage s).storage }

/-- A stored settings object that holds a focus time of ten minutes and nothing else. -/
def focusOnly : SavedSettings :=
  { pomodoroTime := some (.num (.int 10))
    shortBreakTime := none
    longBreakTime := none
    soundEnabled := none
    notificationEnabled := none }

/-- A browser like `bareHost` in which `focusOnly` is stored as the settings. -/
def focusOnlyHost : Host :=
  { bareHost with
    storage := { pomodoroSettings := some (.object focusOnly), pomodoroCount := none } }

/-- The operations of a one-minute focus phase run to its end. -/
def minuteOps : List Op :=
  [.saveSettings minuteForm, .start] ++ List.replicate 60 (.tick 1)

/-- The engine of a fresh page holding the count `10^21`, as it does after it loaded the
stored count `1000000000000000000000`. -/
def hugeCount : State :=
  { freshPage with pomodoroCount := .int 1000000000000000000000 }

/-- A fresh page on which `2^60` pomodoros are counted. -/
def largeCount : State :=
  { freshPage with pomodoroCount := .int 1152921504606846976 }

/-- A one-minute focus phase started on the engine that loaded the stored count `abc`. -/
def nanCountStart : Option State :=
  (construct (countHost "abc")).map fun s0 => start (saveSettings minuteForm s0)

/-- The settings panel with all five inputs changed from the defaults. -/
def sampleForm : Form :=
  { pomodoroTime := "30"
    shortBreakTime := "7"
    longBreakTime := "20"
    soundEnabled := false
    notificationEnabled := true }

/-! ## Field lemmas

What each method does to each field.  The effect trace only grows; the lemmas below
are about the fields the transitions read. -/

section Fields

variable (s : State)

@[simp] theorem emit_settings (e : Effect) : (emit e s).settings = s.settings := rfl
@[simp] theorem emit_currentMode (e : Effect) : (emit e s).currentMode = s.currentMode := rfl
@[simp] theorem emit_timeLeft (e : Effect) : (emit e s).timeLeft = s.timeLeft := rfl
@[simp] theorem emit_isRunning (e : Effect) : (emit e s).isRunning = s.isRunning := rfl
@[simp] theorem emit_pomodoroCount (e : Effect) : (emit e s).pomodoroCount = s.pomodoroCount := rfl
@[simp] theorem emit_interval (e : Effect) : (emit e s).interval = s.interval := rfl
@[simp] theorem emit_timers (e : Effect) : (emit e s).timers = s.timers := rfl
@[simp] theorem emit_nextTimer (e : Effect) : (emit e s).nextTimer = s.nextTimer := rfl
@[simp] theorem emit_storage (e : Effect) : (emit e s).storage = s.storage := rfl
@[simp] theorem emit_notificationApi (e : Effect) : (emit e s).notificationApi = s.notificationApi := rfl
@[simp] theorem emit_permission (e : Effect) : (emit e s).permission = s.permission := rfl
@[simp] theorem emit_audioApi (e : Effect) : (emit e s).audioApi = s.audioApi := rfl

@[simp] theorem clearInterval_settings : (clearInterval s).settings = s.settings := by
  unfold clearInterval; split <;> rfl
@[simp] theorem clearInterval_currentMode : (clearInterval s).currentMode = s.currentMode := by
  unfold clearInterval; split <;> rfl
@[simp] theorem clearInterval_timeLeft : (clearInterval s).timeLeft = s.timeLeft := by
  unfold clearInterval; split <;> rfl
@[simp] theorem clearInterval_isRunning : (clearInterval s).isRunning = s.isRunning := by
  unfold clearInterval; split <;> rfl
@[simp] theorem clearInterval_pomodoroCount : (clearInterval s).pomodoroCount = s.pomodoroCount := by
  unfold clearInterval; split <;> rfl
@[simp] theorem clearInterval_interval : (clearInterval s).interval = s.interval := by
  unfold clearInterval; split <;> rfl
@[simp] theorem clearInterval_nextTimer : (clearInterval s).nextTimer = s.nextTimer := by
  unfold clearInterval; split <;> rfl
@[simp] theorem clearInterval_storage : (clearInterval s).storage = s.storage := by
  unfold clearInterval; split <;> rfl
@[simp] theorem clearInterval_notificationApi : (clearInterval s).notificationApi = s.notificationApi := by
  unfold clearInterval; split <;> rfl
@[simp] theorem clearInterval_permission : (clearInterval s).permission = s.permission := by
  unfold clearInterval; split <;> rfl
@[simp] theorem clearInterval_audioApi : (clearInterval s).audioApi = s.audioApi := by
  unfold clearInterval; split <;> rfl

@[simp] theorem showNotification_settings (a b : String) :
    (showNotification a b s).settings = s.settings := by
  unfold showNotification; split_ifs <;> rfl
@[simp] theorem showNotification_currentMode (a b : String) :
    (showNotification a b s).currentMode = s.currentMode := by
  unfold showNotification; split_ifs <;> rfl
@[simp] theorem showNotification_timeLeft (a b : String) :
    (showNotification a b s).timeLeft = s.timeLeft := by
  unfold showNotification; split_ifs <;> rfl
@[simp] theorem showNotification_isRunning (a b : String) :
    (showNotification a b s).isRunning = s.isRunning := by
  unfold showNotification; split_ifs <;> rfl
@[simp] theorem showNotification_pomodoroCount (a b : String) :
    (showNotification a b s).pomodoroCount = s.pomodoroCount := by
  unfold showNotification; split_ifs <;> rfl
@[simp] theorem showNotification_interval (a b : String) :
    (showNotification a b s).interval = s.interval := by
  unfold showNotification; split_ifs <;> rfl
@[simp] theorem showNotification_timers (a b : String) :
    (showNotification a b s).timers = s.timers := by
  unfold showNotification; split_ifs <;> rfl
@[simp] theorem showNotification_nextTimer (a b : String) :
    (showNotification a b s).nextTimer = s.nextTimer := by
  unfold showNotification; split_ifs <;> rfl
@[simp] theorem showNotification_storage (a b : String) :
    (showNotification a b s).storage = s.storage := by
  unfold showNotification; split_ifs <;> rfl
@[simp] theorem showNotification_notificationApi (a b : String) :
    (showNotification a b s).notificationApi = s.notificationApi := by
  unfold showNotification; split_ifs <;> rfl
@[simp] theorem showNotification_permission (a b : String) :
    (showNotification a b s).permission = s.permission := by
  unfold showNotification; split_ifs <;> rfl
@[simp] theorem showNotification_audioApi (a b : String) :
    (showNotification a b s).audioApi = s.audioApi := by
  unfold showNotification; split_ifs <;> rfl

@[simp] theorem updateDisplay_settings : (updateDisplay s).settings = s.settings := rfl
@[simp] theorem updateDisplay_currentMode : (updateDisplay s).currentMode = s.currentMode := rfl
@[simp] theorem updateDisplay_timeLeft : (updateDisplay s).timeLeft = s.timeLeft := rfl
@[simp] theorem updateDisplay_isRunning : (updateDisplay s).isRunning = s.isRunning := rfl
@[simp] theorem updateDisplay_pomodoroCount : (updateDisplay s).pomodoroCount = s.pomodoroCount := rfl
@[simp] theorem updateDisplay_interval : (updateDisplay s).interval = s.interval := rfl
@[simp] theorem updateDisplay_timers : (updateDisplay s).timers = s.timers := rfl
@[simp] theorem updateDisplay_nextTimer : (updateDisplay s).nextTimer = s.nextTimer := rfl
@[simp] theorem updateDisplay_storage : (updateDisplay s).storage = s.storage := rfl
@[simp] theorem updateDisplay_notificationApi : (updateDisplay s).notificationApi = s.notificationApi := rfl
@[simp] theorem updateDisplay_permission : (updateDisplay s).permission = s.permission := rfl
@[simp] theorem updateDisplay_audioApi : (updateDisplay s).audioApi = s.audioApi := rfl

@[simp] theorem updateModeDisplay_settings : (updateModeDisplay s).settings = s.settings := rfl
@[simp] theorem updateModeDisplay_currentMode : (updateModeDisplay s).currentMode = s.currentMode := rfl
@[simp] theorem updateModeDisplay_timeLeft : (updateModeDisplay s).timeLeft = s.timeLeft := rfl
@[simp] theorem updateModeDisplay_isRunning : (updateModeDisplay s).isRunning = s.isRunning := rfl
@[simp] theorem updateModeDisplay_pomodoroCount : (updateModeDisplay s).pomodoroCount = s.pomodoroCount := rfl
@[simp] theorem updateModeDisplay_interval : (updateModeDisplay s).interval = s.interval := rfl
@[simp] theorem updateModeDisplay_timers : (updateModeDisplay s).timers = s.timers := rfl
@[simp] theorem updateModeDisplay_nextTimer : (updateModeDisplay s).nextTimer = s.nextTimer := rfl
@[simp] theorem updateModeDisplay_storage : (updateModeDisplay s).storage = s.storage := rfl
@[simp] theorem updateModeDisplay_notificationApi : (updateModeDisplay s).notificationApi = s.notificationApi := rfl
@[simp] theorem updateModeDisplay_permission : (updateModeDisplay s).permission = s.permission := rfl
@[simp] theorem updateModeDisplay_audioApi : (updateModeDisplay s).audioApi = s.audioApi := rfl

end Fields

section Methods

variable (s : State)

theorem clearInterval_timers :
    (clearInterval s).timers =
      match s.interval with
      | some id => s.timers.filter (fun t => t != id)
      | none => s.timers := by
  unfold clearInterval; split <;> rfl

/-- Clearing the only interval held leaves none. -/
theorem clearInterval_single (id : Nat) (hi : s.interval = some id) (ht : s.timers = [id]) :
    (clearInterval s).timers = [] := by
  simp [clearInterval_timers, hi, ht]

/-- Clearing does nothing when no interval is held. -/
theorem clearInterval_none (ht : s.timers = []) : (clearInterval s).timers = [] := by
  rw [clearInterval_timers]; split <;> simp [ht]

@[simp] theorem pause_settings : (pause s).settings = s.settings := by simp [pause]
@[simp] theorem pause_currentMode : (pause s).currentMode = s.currentMode := by simp [pause]
@[simp] theorem pause_timeLeft : (pause s).timeLeft = s.timeLeft := by simp [pause]
@[simp] theorem pause_pomodoroCount : (pause s).pomodoroCount = s.pomodoroCount := by simp [pause]
@[simp] theorem pause_interval : (pause s).interval = s.interval := by simp [pause]
@[simp] theorem pause_nextTimer : (pause s).nextTimer = s.nextTimer := by simp [pause]
@[simp] theorem pause_storage : (pause s).storage = s.storage := by simp [pause]
@[simp] theorem pause_notificationApi : (pause s).notificationApi = s.notificationApi := by simp [pause]
@[simp] theorem pause_permission : (pause s).permission = s.permission := by simp [pause]
@[simp] theorem pause_audioApi : (pause s).audioApi = s.audioApi := by simp [pause]
@[simp] theorem pause_isRunning : (pause s).isRunning = false := by simp [pause]
theorem pause_timers : (pause s).timers = (clearInterval s).timers := by
  simp [pause, clearInterval_timers]

@[simp] theorem completeCount_settings : (completeCount s).settings = s.settings := by
  simp only [completeCount]; split_ifs <;> simp [saveToStorage]
@[simp] theorem completeCount_currentMode : (completeCount s).currentMode = s.currentMode := by
  simp only [completeCount]; split_ifs <;> simp [saveToStorage]
@[simp] theorem completeCount_timeLeft : (completeCount s).timeLeft = s.timeLeft := by
  simp only [completeCount]; split_ifs <;> simp [saveToStorage]
@[simp] theorem completeCount_isRunning : (completeCount s).isRunning = s.isRunning := by
  simp only [completeCount]; split_ifs <;> simp [saveToStorage]
@[simp] theorem completeCount_interval : (completeCount s).interval = s.interval := by
  simp only [completeCount]; split_ifs <;> simp [saveToStorage]
@[simp] theorem completeCount_timers : (completeCount s).timers = s.timers := by
  simp only [completeCount]; split_ifs <;> simp [saveToStorage]
@[simp] theorem completeCount_nextTimer : (completeCount s).nextTimer = s.nextTimer := by
  simp only [completeCount]; split_ifs <;> simp [saveToStorage]
@[simp] theorem completeCount_notificationApi : (completeCount s).notificationApi = s.notificationApi := by
  simp only [completeCount]; split_ifs <;> simp [saveToStorage]
@[simp] theorem completeCount_permission : (completeCount s).permission = s.permission := by
  simp only [completeCount]; split_ifs <;> simp [saveToStorage]
@[simp] theorem completeCount_audioApi : (completeCount s).audioApi = s.audioApi := by
  simp only [completeCount]; split_ifs <;> simp [saveToStorage]
theorem completeCount_pomodoroCount :
    (completeCount s).pomodoroCount =
      if s.currentMode = "pomodoro" then s.pomodoroCount.inc else s.pomodoroCount := by
  simp only [completeCount]; split_ifs <;> simp [saveToStorage]

/-- The method `complete` is `pause`, then the counting conditional, then effects only. -/
theorem complete_shape :
    ∃ es, complete s = { completeCount (pause s) with effects := es } := by
  simp only [complete, playSound]
  split_ifs <;> exact ⟨_, rfl⟩

@[simp] theorem complete_settings : (complete s).settings = s.settings := by
  obtain ⟨es, h⟩ := complete_shape s; simp [h]
@[simp] theorem complete_currentMode : (complete s).currentMode = s.currentMode := by
  obtain ⟨es, h⟩ := complete_shape s; simp [h]
@[simp] theorem complete_timeLeft : (complete s).timeLeft = s.timeLeft := by
  obtain ⟨es, h⟩ := complete_shape s; simp [h]
@[simp] theorem complete_interval : (complete s).interval = s.interval := by
  obtain ⟨es, h⟩ := complete_shape s; simp [h]
@[simp] theorem complete_nextTimer : (complete s).nextTimer = s.nextTimer := by
  obtain ⟨es, h⟩ := complete_shape s; simp [h]
@[simp] theorem complete_notificationApi : (complete s).notificationApi = s.notificationApi := by
  obtain ⟨es, h⟩ := complete_shape s; simp [h]
@[simp] theorem complete_permission : (complete s).permission = s.permission := by
  obtain ⟨es, h⟩ := complete_shape s; simp [h]
@[simp] theorem complete_audioApi : (complete s).audioApi = s.audioApi := by
  obtain ⟨es, h⟩ := complete_shape s; simp [h]
@[simp] theorem complete_isRunning : (complete s).isRunning = false := by
  obtain ⟨es, h⟩ := complete_shape s; simp [h]

theorem complete_timers : (complete s).timers = (clearInterval s).timers := by
  obtain ⟨es, h⟩ := complete_shape s; simp [h, pause_timers]

theorem complete_pomodoroCount :
    (complete s).pomodoroCount =
      if s.currentMode = "pomodoro" then s.pomodoroCount.inc else s.pomodoroCount := by
  obtain ⟨es, h⟩ := complete_shape s; simp [h, completeCount_pomodoroCount]

end Methods

section Transitions

variable (s : State)

@[simp] theorem tick_timeLeft : (tick s).timeLeft = s.timeLeft.dec := by
  simp only [tick]; split_ifs <;> simp

@[simp] theorem tick_settings : (tick s).settings = s.settings := by
  simp only [tick]; split_ifs <;> simp

@[simp] theorem tick_currentMode : (tick s).currentMode = s.currentMode := by
  simp only [tick]; split_ifs <;> simp

@[simp] theorem tick_interval : (tick s).interval = s.interval := by
  simp only [tick]; split_ifs <;> simp

@[simp] theorem tick_nextTimer : (tick s).nextTimer = s.nextTimer := by
  simp only [tick]; split_ifs <;> simp

theorem tick_isRunning :
    (tick s).isRunning = if s.timeLeft.dec.leZero then false else s.isRunning := by
  simp only [tick]; split_ifs <;> simp_all

theorem tick_timers :
    (tick s).timers = if s.timeLeft.dec.leZero then (clearInterval s).timers else s.timers := by
  simp only [tick]; split_ifs <;> simp_all [complete_timers, clearInterval_timers]

theorem tick_pomodoroCount :
    (tick s).pomodoroCount =
      if s.timeLeft.dec.leZero ∧ s.currentMode = "pomodoro" then s.pomodoroCount.inc
      else s.pomodoroCount := by
  simp only [tick]; split_ifs <;> simp_all [complete_pomodoroCount]

@[simp] theorem start_settings : (start s).settings = s.settings := rfl
@[simp] theorem start_currentMode : (start s).currentMode = s.currentMode := rfl
@[simp] theorem start_timeLeft : (start s).timeLeft = s.timeLeft := rfl
@[simp] theorem start_isRunning : (start s).isRunning = true := rfl
@[simp] theorem start_pomodoroCount : (start s).pomodoroCount = s.pomodoroCount := rfl
@[simp] theorem start_interval : (start s).interval = some s.nextTimer := rfl
@[simp] theorem start_timers : (start s).timers = s.timers ++ [s.nextTimer] := rfl
@[simp] theorem start_nextTimer : (start s).nextTimer = s.nextTimer + 1 := rfl

@[simp] theorem resetTimer_settings : (resetTimer s).settings = s.settings := by
  simp [resetTimer]
@[simp] theorem resetTimer_currentMode : (resetTimer s).currentMode = s.currentMode := by
  simp [resetTimer]
@[simp] theorem resetTimer_isRunning : (resetTimer s).isRunning = false := by
  simp [resetTimer]
@[simp] theorem resetTimer_pomodoroCount : (resetTimer s).pomodoroCount = s.pomodoroCount := by
  simp [resetTimer]
@[simp] theorem resetTimer_interval : (resetTimer s).interval = s.interval := by
  simp [resetTimer]
@[simp] theorem resetTimer_nextTimer : (resetTimer s).nextTimer = s.nextTimer := by
  simp [resetTimer]
theorem resetTimer_timers : (resetTimer s).timers = (clearInterval s).timers := by
  simp [resetTimer, pause_timers]

/-- The method `getModeTime` reads the mode and the settings only. -/
theorem getModeTime_congr {s t : State} (hm : t.currentMode = s.currentMode)
    (hs : t.settings = s.settings) : getModeTime t = getModeTime s := by
  simp [getModeTime, hm, hs]

theorem resetTimer_timeLeft : (resetTimer s).timeLeft = (getModeTime s).times60 := by
  simp only [resetTimer, updateModeDisplay_timeLeft, updateDisplay_timeLeft, emit_timeLeft]
  exact congrArg _ (getModeTime_congr (by simp) (by simp))

end Transitions

section Switching

variable (s : State) (mode : String) (confirmed : Bool) (form : Form)

/-- Declining the dialog leaves `switchMode` without any assignment. -/
theorem switchMode_declined (hr : s.isRunning = true) : switchMode mode false s = s := by
  simp [switchMode, hr]

theorem getModeTime_eq : getModeTime s = durationOf s.settings s.currentMode := rfl

@[simp] theorem switchMode_settings : (switchMode mode confirmed s).settings = s.settings := by
  simp only [switchMode]; split_ifs <;> simp

@[simp] theorem switchMode_pomodoroCount :
    (switchMode mode confirmed s).pomodoroCount = s.pomodoroCount := by
  simp only [switchMode]; split_ifs <;> simp

@[simp] theorem switchMode_interval : (switchMode mode confirmed s).interval = s.interval := by
  simp only [switchMode]; split_ifs <;> simp

@[simp] theorem switchMode_nextTimer : (switchMode mode confirmed s).nextTimer = s.nextTimer := by
  simp only [switchMode]; split_ifs <;> simp

theorem switchMode_isRunning :
    (switchMode mode confirmed s).isRunning = (s.isRunning && !confirmed) := by
  simp only [switchMode]; split_ifs <;> simp_all

theorem switchMode_currentMode :
    (switchMode mode confirmed s).currentMode =
      if s.isRunning && !confirmed then s.currentMode else mode := by
  simp only [switchMode]; split_ifs <;> simp

theorem switchMode_timeLeft :
    (switchMode mode confirmed s).timeLeft =
      if s.isRunning && !confirmed then s.timeLeft
      else (durationOf s.settings mode).times60 := by
  simp only [switchMode]; split_ifs <;> simp [getModeTime_eq]

theorem switchMode_timers :
    (switchMode mode confirmed s).timers =
      if s.isRunning && confirmed then (clearInterval s).timers else s.timers := by
  simp only [switchMode]; split_ifs <;> simp_all [pause_timers, clearInterval_timers]

@[simp] theorem saveSettings_settings : (saveSettings form s).settings = readForm form := by
  simp only [saveSettings]; split_ifs <;> simp [saveToStorage]

@[simp] theorem saveSettings_currentMode : (saveSettings form s).currentMode = s.currentMode := by
  simp only [saveSettings]; split_ifs <;> simp [saveToStorage]

@[simp] theorem saveSettings_isRunning : (saveSettings form s).isRunning = s.isRunning := by
  simp only [saveSettings]; split_ifs <;> simp [saveToStorage]

@[simp] theorem saveSettings_pomodoroCount :
    (saveSettings form s).pomodoroCount = s.pomodoroCount := by
  simp only [saveSettings]; split_ifs <;> simp [saveToStorage]

@[simp] theorem saveSettings_interval : (saveSettings form s).interval = s.interval := by
  simp only [saveSettings]; split_ifs <;> simp [saveToStorage]

@[simp] theorem saveSettings_timers : (saveSettings form s).timers = s.timers := by
  simp only [saveSettings]; split_ifs <;> simp [saveToStorage]

@[simp] theorem saveSettings_nextTimer : (saveSettings form s).nextTimer = s.nextTimer := by
  simp only [saveSettings]; split_ifs <;> simp [saveToStorage]

theorem saveSettings_timeLeft :
    (saveSettings form s).timeLeft =
      if s.isRunning then s.timeLeft
      else (durationOf (readForm form) s.currentMode).times60 := by
  simp only [saveSettings]; split_ifs <;> simp_all [saveToStorage, getModeTime_eq]

end Switching

section Ticking

theorem fireN_add (id : Nat) (a b : Nat) (s : State) :
    fireN id (a + b) s = (fireN id a s).bind (fireN id b) := by
  induction a generalizing s with
  | zero => simp [fireN]
  | succ a ih =>
    rw [Nat.succ_add]
    simp only [fireN]
    cases fire id s with
    | none => rfl
    | some t => simpa using ih t

/-- A tick from more than one second left only counts down. -/
theorem tick_countdown (s : State) (n : Int) (h : s.timeLeft = .int n) (hn : 1 < n) :
    (tick s).timeLeft = .int (n - 1) ∧ (tick s).isRunning = s.isRunning ∧
      (tick s).timers = s.timers ∧ (tick s).pomodoroCount = s.pomodoroCount := by
  have h0 : s.timeLeft.dec.leZero = false := by
    simp only [h, Num.dec, Num.leZero, decide_eq_false_iff_not]; omega
  refine ⟨by simp [h, Num.dec], ?_, ?_, ?_⟩
  · simp [tick_isRunning, h0]
  · simp [tick_timers, h0]
  · simp [tick_pomodoroCount, h0]

/-- Counting down: `k` ticks of a held interval from `n > k` seconds. -/
theorem fireN_countdown (id : Nat) (k : Nat) :
    ∀ (s : State) (n : Int), id ∈ s.timers → s.timeLeft = .int n → (k : Int) < n →
      ∃ t, fireN id k s = some t ∧ t.timeLeft = .int (n - k) ∧
        t.isRunning = s.isRunning ∧ t.currentMode = s.currentMode ∧
        t.settings = s.settings ∧ t.pomodoroCount = s.pomodoroCount ∧
        t.timers = s.timers ∧ t.interval = s.interval ∧ t.nextTimer = s.nextTimer := by
  induction k with
  | zero => intro s n _ h _; exact ⟨s, rfl, by simpa using h, rfl, rfl, rfl, rfl, rfl, rfl, rfl⟩
  | succ k ih =>
    intro s n hid h hk
    have hn : 1 < n := by omega
    obtain ⟨h1, h2, h3, h4⟩ := tick_countdown s n h hn
    obtain ⟨t, ht, r1, r2, r3, r4, r5, r6, r7, r8⟩ :=
      ih (tick s) (n - 1) (by rw [h3]; exact hid) h1 (by push_cast at hk; omega)
    refine ⟨t, ?_, ?_, ?_, ?_, ?_, ?_, ?_, ?_, ?_⟩
    · simp [fireN, fire, hid, ht]
    · rw [r1]; congr 1; push_cast; ring
    · rw [r2, h2]
    · rw [r3]; simp
    · rw [r4]; simp
    · rw [r5, h4]
    · rw [r6, h3]
    · rw [r7]; simp
    · rw [r8]; simp

end Ticking

section Invariants

theorem durationOf_positive (t : Settings) (ht : t.positive) (mode : String) :
    ∃ p : Int, 0 < p ∧ durationOf t mode = .num (.int p) := by
  have key : ∀ d : Duration, d.isPositive → ∃ p : Int, 0 < p ∧ d = .num (.int p) := by
    intro d hd
    match d, hd with
    | .num (.int i), hd => exact ⟨i, hd, rfl⟩
  unfold durationOf
  split_ifs
  · exact key _ ht.1
  · exact key _ ht.2.1
  · exact key _ ht.2.2
  · exact ⟨25, by decide, rfl⟩

/-- With positive settings every recomputed `timeLeft` is at least a minute. -/
theorem times60_durationOf (t : Settings) (ht : t.positive) (mode : String) :
    ∃ n : Int, 60 ≤ n ∧ (durationOf t mode).times60 = .int n := by
  obtain ⟨p, hp, hd⟩ := durationOf_positive t ht mode
  exact ⟨p * 60, by omega, by rw [hd]; rfl⟩

/-- What the constructor leaves in the fields, whatever is stored. -/
theorem construct_fields (h : Host) (s0 : State) (hc : construct h = some s0) :
    s0.currentMode = "pomodoro" ∧ s0.isRunning = false ∧ s0.timeLeft = .int 1500 ∧
      s0.timers = [] ∧ s0.interval = none := by
  simp only [construct, init, loadFromStorage, Option.map_eq_some', Option.map_map] at hc
  obtain ⟨a, ha, rfl⟩ := hc
  have ha' : a.currentMode = "pomodoro" ∧ a.isRunning = false ∧ a.timeLeft = .int 1500 ∧
      a.timers = [] ∧ a.interval = none := by
    split at ha
    · cases ha; exact ⟨rfl, rfl, rfl, rfl, rfl⟩
    · cases ha; exact ⟨rfl, rfl, rfl, rfl, rfl⟩
    · cases ha
    · cases ha; exact ⟨rfl, rfl, rfl, rfl, rfl⟩
  obtain ⟨h1, h2, h3, h4, h5⟩ := ha'
  simp only [Function.comp]
  unfold requestNotificationPermission
  split_ifs <;> split <;> (try split_ifs) <;> simp [h1, h2, h3, h4, h5]

end Invariants

section CountdownInvariant

theorem countdown_pause {s : State} (h : Countdown s) : Countdown (pause s) := by
  obtain ⟨hp, ⟨n, hn, h0, -⟩, hidle, hrun⟩ := h
  refine ⟨by simpa using hp, ⟨n, by simpa using hn, h0, by simp⟩, fun _ => ?_, by simp⟩
  rw [pause_timers]
  cases hr : s.isRunning with
  | false => exact clearInterval_none s (hidle hr)
  | true =>
    obtain ⟨id, hi, ht⟩ := hrun hr
    exact clearInterval_single s id hi ht

theorem countdown_start {s : State} (h : Countdown s) (hr : s.isRunning = false)
    (h1 : Num.int 1 ≤ s.timeLeft) : Countdown (start s) := by
  obtain ⟨hp, ⟨n, hn, h0, -⟩, hidle, -⟩ := h
  refine ⟨by simpa using hp, ⟨n, by simpa using hn, h0, fun _ => ?_⟩, by simp,
    fun _ => ⟨s.nextTimer, by simp, by simp [hidle hr]⟩⟩
  rw [hn] at h1
  exact h1

theorem countdown_resetTimer {s : State} (h : Countdown s) : Countdown (resetTimer s) := by
  have hp := countdown_pause h
  obtain ⟨n, hn, hd⟩ := times60_durationOf s.settings h.1 s.currentMode
  refine ⟨by simpa using h.1, ⟨n, ?_, by omega, fun _ => by omega⟩, fun _ => ?_, by simp⟩
  · rw [resetTimer_timeLeft, getModeTime_eq, hd]
  · rw [resetTimer_timers, ← pause_timers]; exact hp.2.2.1 (by simp)

theorem countdown_switchMode {s : State} (h : Countdown s) (mode : String)
    (confirmed : Bool) : Countdown (switchMode mode confirmed s) := by
  by_cases hd : (s.isRunning && !confirmed) = true
  · have : switchMode mode confirmed s = s := by simp [switchMode, hd]
    rw [this]; exact h
  · have hp := countdown_pause h
    obtain ⟨n, hn, hn'⟩ := times60_durationOf s.settings h.1 mode
    have hrun : (switchMode mode confirmed s).isRunning = false := by
      rw [switchMode_isRunning]; simpa using hd
    refine ⟨by simpa using h.1, ⟨n, ?_, by omega, fun _ => by omega⟩, fun _ => ?_, ?_⟩
    · rw [switchMode_timeLeft, if_neg hd, hn']
    · rw [switchMode_timers]
      split_ifs with hc
      · rw [← pause_timers]; exact hp.2.2.1 (by simp)
      · apply h.2.2.1
        cases hr : s.isRunning <;> cases hcf : confirmed <;> simp_all
    · intro hr; rw [hrun] at hr; cases hr

theorem countdown_saveSettings {s : State} (h : Countdown s) (form : Form)
    (hf : form.positive) : Countdown (saveSettings form s) := by
  obtain ⟨-, ⟨n, hn, h0, h1⟩, hidle, hrun⟩ := h
  refine ⟨by simpa using hf, ?_, by simpa using hidle, by simpa using hrun⟩
  rw [saveSettings_timeLeft, saveSettings_isRunning]
  cases hr : s.isRunning with
  | true => exact ⟨n, by simpa using hn, h0, fun _ => h1 hr⟩
  | false =>
    obtain ⟨m, hm, hm'⟩ := times60_durationOf (readForm form) hf s.currentMode
    exact ⟨m, by simpa using hm', by omega, fun _ => by omega⟩

/-- A tick of a held interval keeps the invariant; when it completes the phase,
`timeLeft` is exactly 0 and nothing ticks any more. -/
theorem countdown_tick {s : State} (h : Countdown s) (id : Nat) (hid : id ∈ s.timers) :
    Countdown (tick s) ∧
      (s.timeLeft.dec.leZero = true →
        (tick s).timeLeft = .int 0 ∧ (tick s).isRunning = false ∧ (tick s).timers = []) := by
  obtain ⟨hp, ⟨n, hn, h0, h1⟩, hidle, hrun⟩ := h
  have hr : s.isRunning = true := by
    cases hr : s.isRunning with
    | true => rfl
    | false => rw [hidle hr] at hid; cases hid
  obtain ⟨i, hi, ht⟩ := hrun hr
  have hn1 := h1 hr
  have hclear : (clearInterval s).timers = [] := clearInterval_single s i hi ht
  by_cases hz : s.timeLeft.dec.leZero = true
  · have hn0 : n = 1 := by
      rw [hn] at hz
      simp only [Num.dec, Num.leZero, decide_eq_true_eq] at hz
      omega
    subst hn0
    have e1 : (tick s).timeLeft = .int 0 := by simp [hn, Num.dec]
    have e2 : (tick s).isRunning = false := by simp [tick_isRunning, hz]
    have e3 : (tick s).timers = [] := by simp [tick_timers, hz, hclear]
    refine ⟨⟨by simpa using hp, ⟨0, e1, le_refl _, fun hr' => ?_⟩, fun _ => e3, fun hr' => ?_⟩,
      fun _ => ⟨e1, e2, e3⟩⟩
    · rw [e2] at hr'; cases hr'
    · rw [e2] at hr'; cases hr'
  · have hn2 : 1 < n := by
      rw [hn] at hz
      simp only [Num.dec, Num.leZero, decide_eq_true_eq] at hz
      omega
    refine ⟨⟨by simpa using hp, ⟨n - 1, by simp [hn, Num.dec], by omega, fun _ => by omega⟩,
      fun hr' => ?_, fun _ => ⟨i, by simpa using hi, by simp [tick_timers, hz, ht]⟩⟩,
      fun hz' => absurd hz' hz⟩
    rw [tick_isRunning, if_neg hz, hr] at hr'; cases hr'

theorem countdown_step {s t : State} (h : Countdown s) (o : Op) (ok : StartGuarded o s)
    (next : step o s = some t) : Countdown t := by
  cases o with
  | start => cases next; exact countdown_start h ok.1 ok.2
  | pause => cases next; exact countdown_pause h
  | toggleTimer =>
    cases next
    unfold toggleTimer
    split_ifs with hr
    · exact countdown_pause h
    · exact countdown_start h (by simpa using hr) (ok.resolve_left hr)
  | resetTimer => cases next; exact countdown_resetTimer h
  | switchMode mode confirmed => cases next; exact countdown_switchMode h mode confirmed
  | saveSettings form => cases next; exact countdown_saveSettings h form ok
  | tick id =>
    simp only [step, fire] at next
    split_ifs at next with hid
    cases next
    exact (countdown_tick h id hid).1

theorem countdown_reachable {s0 s : State} (h0 : Countdown s0)
    (hr : Reachable StartGuarded s0 s) : Countdown s := by
  induction hr with
  | init => exact h0
  | step o _ ok next ih => exact countdown_step ih o ok next

/-- The constructed state satisfies the invariant as soon as its settings are positive. -/
theorem countdown_construct (h : Host) (s0 : State) (hc : construct h = some s0)
    (hp : s0.settings.positive) : Countdown s0 := by
  obtain ⟨-, h2, h3, h4, -⟩ := construct_fields h s0 hc
  exact ⟨hp, ⟨1500, h3, by decide, fun _ => by decide⟩, fun _ => h4,
    fun hr => by rw [h2] at hr; cases hr⟩

end CountdownInvariant

section RunAny

theorem reachable_runAny (s0 : State) (ops : List Op) :
    ∀ s t, Reachable AnyOp s0 s → runAny ops s = some t → Reachable AnyOp s0 t := by
  induction ops with
  | nil => intro s t hs h; cases h; exact hs
  | cons o os ih =>
    intro s t hs h
    simp only [runAny] at h
    split_ifs at h with ok
    cases hn : step o s with
    | none => rw [hn] at h; cases h
    | some u => rw [hn] at h; exact ih u t (.step o hs ok hn) h

end RunAny

section BoundInvariant

theorem Num.le_refl_int (i : Int) : Num.int i ≤ Num.int i := Int.le_refl i

theorem Num.dec_le {a b : Num} (h : a ≤ b) : a.dec ≤ b := by
  match a, b, h with
  | .int x, .int y, h =>
    have h' : x ≤ y := h
    show x - 1 ≤ y
    omega

/-- With positive settings the recomputed `timeLeft` meets its own bound. -/
theorem times60_le_self (t : Settings) (ht : t.positive) (mode : String) :
    (durationOf t mode).times60 ≤ (durationOf t mode).times60 := by
  obtain ⟨n, -, hn⟩ := times60_durationOf t ht mode
  rw [hn]; exact Num.le_refl_int n

theorem bounded_step {s t : State} (h : Bounded s) (o : Op) (ok : SaveIdle o s)
    (next : step o s = some t) : Bounded t := by
  obtain ⟨hp, hb⟩ := h
  rw [getModeTime_eq] at hb
  unfold Bounded
  rw [getModeTime_eq]
  cases o with
  | start => cases next; exact ⟨by simpa using hp, by simpa using hb⟩
  | pause => cases next; exact ⟨by simpa using hp, by simpa using hb⟩
  | toggleTimer =>
    cases next
    unfold toggleTimer
    split_ifs
    · exact ⟨by simpa using hp, by simpa using hb⟩
    · exact ⟨by simpa using hp, by simpa using hb⟩
  | resetTimer =>
    cases next
    refine ⟨by simpa using hp, ?_⟩
    rw [resetTimer_timeLeft, getModeTime_eq, resetTimer_settings, resetTimer_currentMode]
    exact times60_le_self _ hp _
  | switchMode mode confirmed =>
    cases next
    refine ⟨by simpa using hp, ?_⟩
    rw [switchMode_timeLeft, switchMode_currentMode, switchMode_settings]
    split_ifs
    · exact hb
    · exact times60_le_self _ hp _
  | saveSettings form =>
    cases next
    refine ⟨by simpa using ok.1, ?_⟩
    rw [saveSettings_timeLeft, saveSettings_settings, saveSettings_currentMode, ok.2]
    exact times60_le_self _ ok.1 _
  | tick id =>
    simp only [step, fire] at next
    split_ifs at next
    cases next
    refine ⟨by simpa using hp, ?_⟩
    rw [tick_timeLeft, tick_settings, tick_currentMode]
    exact Num.dec_le hb

theorem bounded_reachable {s0 s : State} (h0 : Bounded s0) (hr : Reachable SaveIdle s0 s) :
    Bounded s := by
  induction hr with
  | init => exact h0
  | step o _ ok next ih => exact bounded_step ih o ok next

end BoundInvariant

section MoreTicking

theorem fireN_frame (id : Nat) (k : Nat) :
    ∀ s t : State, fireN id k s = some t →
      t.settings = s.settings ∧ t.currentMode = s.currentMode := by
  induction k with
  | zero => intro s t h; cases h; exact ⟨rfl, rfl⟩
  | succ k ih =>
    intro s t h
    simp only [fireN, fire] at h
    split_ifs at h
    · obtain ⟨h1, h2⟩ := ih (tick s) t (by simpa using h)
      exact ⟨by simpa using h1, by simpa using h2⟩
    · cases h

/-- With a single interval held, a second is one tick. -/
theorem elapse_single (s : State) (id : Nat) (h : s.timers = [id]) : elapse s = tick s := by
  simp [elapse, h]

/-- With no interval held, a second changes nothing. -/
theorem elapse_none (s : State) (h : s.timers = []) : elapse s = s := by
  simp [elapse, h]

end MoreTicking

section Effects

variable (s : State)

@[simp] theorem emit_effects (e : Effect) : (emit e s).effects = s.effects ++ [e] := rfl

@[simp] theorem clearInterval_effects : (clearInterval s).effects = s.effects := by
  unfold clearInterval; split <;> rfl

theorem showNotification_eq (a b : String) :
    showNotification a b s =
      if showsNotifications s then emit (.notification a b) s else s := by
  unfold showNotification showsNotifications
  cases s.settings.notificationEnabled <;> cases s.notificationApi <;>
    by_cases hp : s.permission = .granted <;> simp [hp]

theorem showNotification_effects (a b : String) :
    (showNotification a b s).effects =
      s.effects ++ (if showsNotifications s then [.notification a b] else []) := by
  rw [showNotification_eq]; split_ifs <;> simp

@[simp] theorem showNotification_shows (a b : String) :
    showsNotifications (showNotification a b s) = showsNotifications s := by
  simp [showsNotifications]

@[simp] theorem updateDisplay_effects :
    (updateDisplay s).effects =
      s.effects ++ [.timerDisplay (displayText s.timeLeft),
        .title (displayText s.timeLeft ++ " - 番茄钟")] := by
  simp [updateDisplay]

@[simp] theorem pause_effects :
    (pause s).effects = s.effects ++ [.startPauseText "继续", .modeText (some "已暂停")] := by
  simp [pause]

theorem completeCount_effects :
    (completeCount s).effects =
      s.effects ++
        (if s.currentMode = "pomodoro" then
          .countText s.pomodoroCount.inc.toText ::
            (if showsNotifications s then
              [.notification "番茄完成！"
                (if s.pomodoroCount.inc.mod4IsZero then "你已经完成了4个番茄，该休息一下了！"
                  else "休息一下吧！")]
              else [])
        else if showsNotifications s then [.notification "休息结束！" "准备开始新的番茄吧！"]
        else []) := by
  simp only [completeCount]
  split_ifs <;>
    simp_all [showNotification_effects, showsNotifications, saveToStorage]

theorem complete_effects :
    (complete s).effects =
      (completeCount (pause s)).effects ++
        (if s.settings.soundEnabled = false then [.modeText (some (getModeCompleteText s))]
          else if s.audioApi = true then [.tone, .modeText (some (getModeCompleteText s))]
          else [.typeError]) := by
  have hm : getModeCompleteText (completeCount (pause s)) = getModeCompleteText s := by
    simp [getModeCompleteText]
  simp only [complete, playSound]
  split_ifs <;> simp_all [getModeCompleteText]

end Effects

section TraceFacts

theorem notifications_append (xs ys : List Effect) :
    notifications (xs ++ ys) = notifications xs ++ notifications ys := by
  induction xs with
  | nil => rfl
  | cons e es ih => cases e <;> simp [notifications, ih]

@[simp] theorem pause_shows (s : State) :
    showsNotifications (pause s) = showsNotifications s := by
  simp [showsNotifications]

end TraceFacts

section TraceShape

/-- The conditional of `complete` adds no write to the mode label. -/
theorem completeCount_trace (s : State) :
    ∃ mid, (completeCount s).effects = s.effects ++ mid ∧
      ∀ e ∈ mid, ∀ text, e ≠ .modeText text := by
  refine ⟨_, completeCount_effects s, ?_⟩
  intro e he text
  split_ifs at he <;> simp at he <;> (try rcases he with rfl | rfl) <;> simp

end TraceShape

section Loading

/-- What `loadFromStorage` returns when `JSON.parse` does not throw. -/
theorem loadFromStorage_some (s : State) (hs : s.storage.pomodoroSettings ≠ some .malformed) :
    ∃ t, loadFromStorage s = some t ∧
      t.settings = loadedSettings s.settings s.storage.pomodoroSettings ∧
      t.pomodoroCount = loadedCount s.pomodoroCount s.storage.pomodoroCount ∧
      t.currentMode = s.currentMode ∧ t.timeLeft = s.timeLeft ∧
      t.isRunning = s.isRunning ∧ t.interval = s.interval ∧ t.timers = s.timers ∧
      t.nextTimer = s.nextTimer ∧ t.storage = s.storage ∧
      t.notificationApi = s.notificationApi ∧ t.permission = s.permission ∧
      t.audioApi = s.audioApi := by
  unfold loadFromStorage loadedSettings loadedCount
  rcases hset : s.storage.pomodoroSettings with _ | _ | _ | o
  · rcases hcnt : s.storage.pomodoroCount with _ | text
    · exact ⟨_, rfl, by simp [hcnt]⟩
    · by_cases he : text.isEmpty = true <;> exact ⟨_, rfl, by simp [hcnt, he]⟩
  · rcases hcnt : s.storage.pomodoroCount with _ | text
    · exact ⟨_, rfl, by simp [hcnt]⟩
    · by_cases he : text.isEmpty = true <;> exact ⟨_, rfl, by simp [hcnt, he]⟩
  · exact absurd hset hs
  · rcases hcnt : s.storage.pomodoroCount with _ | text
    · exact ⟨_, rfl, by simp [hcnt]⟩
    · by_cases he : text.isEmpty = true <;> exact ⟨_, rfl, by simp [hcnt, he]⟩

/-- The exception of `JSON.parse` on a text that is no JSON leaves no engine. -/
theorem loadFromStorage_malformed (s : State)
    (hs : s.storage.pomodoroSettings = some .malformed) : loadFromStorage s = none := by
  simp [loadFromStorage, hs]

/-- The constructed engine, field by field, when `JSON.parse` does not throw. -/
theorem construct_some (h : Host) (hs : h.storage.pomodoroSettings ≠ some .malformed) :
    ∃ s0, construct h = some s0 ∧
      s0.settings = loadedSettings defaultSettings h.storage.pomodoroSettings ∧
      s0.pomodoroCount = loadedCount (.int 0) h.storage.pomodoroCount ∧
      s0.currentMode = "pomodoro" ∧ s0.timeLeft = .int 1500 ∧ s0.isRunning = false ∧
      s0.interval = none ∧ s0.timers = [] ∧ s0.nextTimer = 1 ∧ s0.storage = h.storage ∧
      s0.notificationApi = h.notificationApi ∧ s0.permission = h.permission ∧
      s0.audioApi = h.audioApi := by
  obtain ⟨t, ht, h1, h2, h3, h4, h5, h6, h7, h8, h9, h10, h11, h12⟩ :=
    loadFromStorage_some (fresh h) hs
  refine ⟨requestNotificationPermission (updateModeDisplay (updateDisplay t)), ?_, ?_⟩
  · simp [construct, init, ht]
  · unfold requestNotificationPermission
    split_ifs <;>
      simp [h1, h2, h3, h4, h5, h6, h7, h8, h9, h10, h11, h12, fresh] <;> rfl

end Loading

section Decimal

/-- A character between `0` and `9`. -/
theorem digitChar_toNat (k : Nat) (hk : k < 10) : (Nat.digitChar k).toNat = 48 + k := by
  interval_cases k <;> rfl

/-- The digits `Nat.repr` produces: decimal digit characters that write the number. -/
theorem toDigitsCore_decimal (fuel : Nat) :
    ∀ (n : Nat) (ds : List Char), n < fuel →
      ∃ pre, Nat.toDigitsCore 10 fuel n ds = pre ++ ds ∧ pre ≠ [] ∧
        (∀ c ∈ pre, 48 ≤ c.toNat ∧ c.toNat ≤ 57) ∧ decimalValue pre = n := by
  induction fuel with
  | zero => intro n ds h; omega
  | succ fuel ih =>
    intro n ds h
    have hd : (Nat.digitChar (n % 10)).toNat = 48 + n % 10 :=
      digitChar_toNat _ (Nat.mod_lt _ (by decide))
    simp only [Nat.toDigitsCore]
    split_ifs with h0
    · refine ⟨[Nat.digitChar (n % 10)], rfl, by simp, ?_, ?_⟩
      · intro c hc
        rw [List.mem_singleton.mp hc, hd]
        have := Nat.mod_lt n (show 0 < 10 by decide)
        omega
      · simp only [decimalValue, List.foldl, hd]
        omega
    · obtain ⟨pre, h1, -, h3, h4⟩ := ih (n / 10) (Nat.digitChar (n % 10) :: ds) (by omega)
      refine ⟨pre ++ [Nat.digitChar (n % 10)], by rw [h1]; simp, by simp, ?_, ?_⟩
      · intro c hc
        rcases List.mem_append.mp hc with hc | hc
        · exact h3 c hc
        · rw [List.mem_singleton.mp hc, hd]
          have := Nat.mod_lt n (show 0 < 10 by decide)
          omega
      · unfold decimalValue at h4 ⊢
        rw [List.foldl_append, h4]
        simp only [List.foldl, hd]
        omega

/-- The text of a natural number is a non-empty run of decimal digits that writes it. -/
theorem toString_decimal (n : Nat) :
    (toString n).toList ≠ [] ∧ (∀ c ∈ (toString n).toList, 48 ≤ c.toNat ∧ c.toNat ≤ 57) ∧
      decimalValue (toString n).toList = n := by
  obtain ⟨pre, h1, h2, h3, h4⟩ := toDigitsCore_decimal (n + 1) n [] (by omega)
  have e : (toString n).toList = pre := by
    show Nat.toDigitsCore 10 (n + 1) n [] = pre
    rw [h1]; simp
  rw [e]; exact ⟨h2, h3, h4⟩

theorem leadingDigits_decimal (cs : List Char)
    (h : ∀ c ∈ cs, 48 ≤ c.toNat ∧ c.toNat ≤ 57) :
    leadingDigits 10 cs = cs.map (fun c => c.toNat - 48) := by
  induction cs with
  | nil => rfl
  | cons c cs ih =>
    have hc := h c (List.mem_cons_self _ _)
    have hd : digitValue c = some (c.toNat - 48) := by simp [digitValue, hc]
    have hlt : c.toNat - 48 < 10 := by omega
    simp only [leadingDigits, hd, hlt, if_true, List.map_cons]
    rw [ih (fun c' hc' => h c' (List.mem_cons_of_mem _ hc'))]

/-- The builtin `parseInt` on a non-empty run of decimal digits reads the number, as the
double nearest to it. -/
theorem parseInt_decimal (text : String) (hne : text.toList ≠ [])
    (h : ∀ c ∈ text.toList, 48 ≤ c.toNat ∧ c.toNat ≤ 57) :
    parseInt text = .int (roundToDouble (decimalValue text.toList)) := by
  obtain ⟨c, rest, hcs⟩ : ∃ c rest, text.toList = c :: rest := by
    cases hl : text.toList with
    | nil => exact absurd hl hne
    | cons c rest => exact ⟨c, rest, rfl⟩
  have hc := h c (by rw [hcs]; exact List.mem_cons_self _ _)
  have hws : isStrWhiteSpace c = false := by
    unfold isStrWhiteSpace
    generalize c.toNat = k at hc
    obtain ⟨h1, h2⟩ := hc
    interval_cases k <;> rfl
  have hminus : c ≠ '-' := by rintro rfl; revert hc; decide
  have hplus : c ≠ '+' := by rintro rfl; revert hc; decide
  have hx : ∀ r, rest ≠ 'x' :: r := by
    rintro r rfl
    have := h 'x' (by rw [hcs]; simp)
    revert this; decide
  have hX : ∀ r, rest ≠ 'X' :: r := by
    rintro r rfl
    have := h 'X' (by rw [hcs]; simp)
    revert this; decide
  have e1 : (match c :: rest with
      | '-' :: r => r
      | '+' :: r => r
      | r => r) = c :: rest := by
    split
    · rename_i heq; exact absurd (List.cons.inj heq).1 hminus
    · rename_i heq; exact absurd (List.cons.inj heq).1 hplus
    · rfl
  have e2 : (match c :: rest with
      | '0' :: 'x' :: _ => 16
      | '0' :: 'X' :: _ => 16
      | _ => 10) = 10 := by
    split
    · rename_i heq; exact absurd (List.cons.inj heq).2 (hx _)
    · rename_i heq; exact absurd (List.cons.inj heq).2 (hX _)
    · rfl
  have e3 : (match c :: rest with
      | '0' :: 'x' :: r => r
      | '0' :: 'X' :: r => r
      | r => r) = c :: rest := by
    split
    · rename_i heq; exact absurd (List.cons.inj heq).2 (hx _)
    · rename_i heq; exact absurd (List.cons.inj heq).2 (hX _)
    · rfl
  have hhead : ¬ (c :: rest).head? = some '-' := by
    simp only [List.head?_cons, Option.some.injEq]; exact hminus
  have hdigits := leadingDigits_decimal (c :: rest) (by rw [← hcs]; exact h)
  unfold parseInt
  simp only [hcs, List.dropWhile, hws, e1, e2, e3, hhead, if_false, hdigits]
  rw [if_neg (by simp)]
  simp only [List.foldl_map, decimalValue]

end Decimal

section Rendering

/-- Up to `2^53` a number is its own double. -/
theorem roundToDouble_of_le (v : Nat) (h : v ≤ 2 ^ 53) : roundToDouble v = v := by
  have h' : v ≤ 9007199254740992 := by norm_num at h; exact h
  simp [roundToDouble, h']

/-- Up to `2^53` the text `toString()` writes is the decimal digits. -/
theorem numberText_of_le (n : Nat) (h : n ≤ 2 ^ 53) : (Num.int n).numberText = toString n := by
  have h' : (n : Int).natAbs ≤ 9007199254740992 := by
    norm_num at h; simpa using h
  simp only [Num.numberText, h', if_true]
  rfl

/-- The text of a count that is a natural number up to `2^53` parses back to it. -/
theorem parseInt_toText (n : Nat) (hn : n ≤ 2 ^ 53) : parseInt (Num.int n).toText = .int n := by
  obtain ⟨h1, h2, h3⟩ := toString_decimal n
  have e : (Num.int n).toText = toString n := rfl
  rw [e, parseInt_decimal _ h1 h2, h3, roundToDouble_of_le n hn]

theorem toText_not_empty (n : Nat) : (Num.int n).toText.isEmpty = false := by
  have e : (Num.int n).toText = toString n := rfl
  have h1 := (toString_decimal n).1
  rw [e, Bool.eq_false_iff]
  intro h
  rw [String.isEmpty_iff] at h
  rw [h] at h1
  exact h1 rfl

theorem displayText_nat (n : Nat) :
    displayText (.int n) = padStart2 (toString (n / 60)) ++ ":" ++ padStart2 (toString (n % 60)) := by
  have e1 : Int.fdiv (n : Int) 60 = ((n / 60 : Nat) : Int) := by
    simp [Int.fdiv_eq_ediv]
  have e2 : Int.tmod (n : Int) 60 = ((n % 60 : Nat) : Int) := by
    simp [Int.tmod]
  simp only [displayText, Num.floorDiv60, Num.rem60, Num.toText, e1, e2]
  rfl

/-- Below a hundred `padStart` gives exactly the two decimal digits. -/
theorem padStart2_two_digits :
    ∀ m < 100, (padStart2 (toString m)).toList = [Nat.digitChar (m / 10), Nat.digitChar (m % 10)] := by
  decide

end Rendering

section RenderingMore

theorem decimalValue_append (xs : List Char) (c : Char) :
    decimalValue (xs ++ [c]) = decimalValue xs * 10 + (c.toNat - 48) := by
  simp [decimalValue, List.foldl_append]

/-- A run of `k` decimal digits writes a number below `10 ^ k`. -/
theorem decimalValue_lt (cs : List Char) (h : ∀ c ∈ cs, 48 ≤ c.toNat ∧ c.toNat ≤ 57) :
    decimalValue cs < 10 ^ cs.length := by
  induction cs using List.reverseRecOn with
  | nil => simp [decimalValue]
  | append_singleton xs c ih =>
    have hx := ih (fun d hd => h d (List.mem_append_left _ hd))
    have hc := h c (by simp)
    rw [decimalValue_append, List.length_append, List.length_singleton, pow_succ]
    omega

/-- Zeros in front do not change the number written. -/
theorem decimalValue_zeros (k : Nat) (cs : List Char) :
    decimalValue (List.replicate k '0' ++ cs) = decimalValue cs := by
  induction k with
  | zero => rfl
  | succ k ih =>
    rw [List.replicate_succ, List.cons_append]
    unfold decimalValue at ih ⊢
    rw [List.foldl_cons]
    exact ih

theorem padStart2_toList (text : String) :
    (padStart2 text).toList = List.replicate (2 - text.length) '0' ++ text.toList := by
  simp [padStart2, String.toList]

/-- The padded text of a natural number still writes that number. -/
theorem decimalValue_padStart2 (k : Nat) :
    decimalValue (padStart2 (toString k)).toList = k := by
  rw [padStart2_toList, decimalValue_zeros]
  exact (toString_decimal k).2.2

/-- From a hundred on the text of a number has at least three digits. -/
theorem toString_length_ge (k : Nat) (hk : 100 ≤ k) : 3 ≤ (toString k).length := by
  obtain ⟨-, h2, h3⟩ := toString_decimal k
  have hlt := decimalValue_lt _ h2
  rw [h3] at hlt
  by_contra hlen
  have hle : (toString k).toList.length ≤ 2 := by
    have : (toString k).length = (toString k).toList.length := rfl
    omega
  have : 10 ^ (toString k).toList.length ≤ 10 ^ 2 := Nat.pow_le_pow_right (by decide) hle
  omega

/-- The seconds are always the two decimal digits of `timeLeft % 60`. -/
theorem displayText_toList (n : Nat) :
    (displayText (.int n)).toList =
      (padStart2 (toString (n / 60))).toList ++
        [':', Nat.digitChar (n % 60 / 10), Nat.digitChar (n % 60 % 10)] := by
  rw [displayText_nat]
  simp only [String.toList, String.data_append]
  have h := padStart2_two_digits (n % 60) (by omega)
  simp only [String.toList] at h
  rw [h, List.append_assoc]
  rfl

theorem digitChar_injective (a b : Nat) (ha : a < 10) (hb : b < 10)
    (h : Nat.digitChar a = Nat.digitChar b) : a = b := by
  have h1 := digitChar_toNat a ha
  have h2 := digitChar_toNat b hb
  rw [h] at h1
  omega

/-- Distinct natural numbers render to distinct texts. -/
theorem displayText_injective (n m : Nat) (h : displayText (.int n) = displayText (.int m)) :
    n = m := by
  have hl := congrArg String.toList h
  rw [displayText_toList, displayText_toList] at hl
  obtain ⟨h1, h2⟩ := List.append_inj' hl rfl
  have hmin : n / 60 = m / 60 := by
    have := congrArg decimalValue h1
    rwa [decimalValue_padStart2, decimalValue_padStart2] at this
  simp only [List.cons.injEq, and_true, true_and] at h2
  have ha := digitChar_injective _ _ (by omega) (by omega) h2.1
  have hb := digitChar_injective _ _ (by omega) (by omega) h2.2
  omega

end RenderingMore

section HostFrame

@[simp] theorem tick_notificationApi (s : State) :
    (tick s).notificationApi = s.notificationApi := by
  simp only [tick]; split_ifs <;> simp

@[simp] theorem tick_permission (s : State) : (tick s).permission = s.permission := by
  simp only [tick]; split_ifs <;> simp

@[simp] theorem tick_audioApi (s : State) : (tick s).audioApi = s.audioApi := by
  simp only [tick]; split_ifs <;> simp

/-- Ticks leave the browser's interfaces as they are. -/
theorem fireN_host (id : Nat) (k : Nat) :
    ∀ s t : State, fireN id k s = some t →
      t.notificationApi = s.notificationApi ∧ t.permission = s.permission ∧
        t.audioApi = s.audioApi := by
  induction k with
  | zero => intro s t h; cases h; exact ⟨rfl, rfl, rfl⟩
  | succ k ih =>
    intro s t h
    simp only [fireN, fire] at h
    split_ifs at h
    · obtain ⟨h1, h2, h3⟩ := ih (tick s) t (by simpa using h)
      exact ⟨by simpa using h1, by simpa using h2, by simpa using h3⟩
    · cases h

/-- The tick that brings `timeLeft` to zero or below is the display update and `complete`. -/
theorem tick_completes (s : State) (h : s.timeLeft.dec.leZero = true) :
    tick s = complete (updateDisplay { s with timeLeft := s.timeLeft.dec }) := by
  simp [tick, h]

end HostFrame

section StoredCount

/-- The decimal number written for a double reads back as that double. -/
theorem shortestDecimal_round (v : Nat) (hv : roundToDouble v = v) :
    roundToDouble (shortestDecimal v) = v := by
  unfold shortestDecimal
  simp only
  cases hf : (List.range 17).findSome? _ with
  | none => simpa using hv
  | some w =>
    obtain ⟨j, -, hj⟩ := List.exists_of_findSome?_eq_some hf
    simp only [Option.getD_some]
    split_ifs at hj with h1 h2 h3 h4 h5 h6 <;> simp only [Option.some.injEq] at hj <;>
      first
        | exact absurd hj (by simp)
        | (subst hj; first | exact h2.1 | exact h2.2 | assumption)

/-- A number is below ten to the count of its decimal digits. -/
theorem lt_pow_length (v : Nat) : v < 10 ^ (toString v).length := by
  obtain ⟨-, h2, h3⟩ := toString_decimal v
  have h := decimalValue_lt (toString v).toList h2
  rw [h3] at h
  exact h

/-- The decimal number written for `v` has no more digits than ten to the count of the
digits of `v`. -/
theorem shortestDecimal_le (v : Nat) : shortestDecimal v ≤ 10 ^ (toString v).length := by
  have hv := lt_pow_length v
  unfold shortestDecimal
  simp only
  cases hf : (List.range 17).findSome? _ with
  | none => simpa using hv.le
  | some w =>
    obtain ⟨j, -, hj⟩ := List.exists_of_findSome?_eq_some hf
    simp only [Option.getD_some]
    by_cases hlen : j + 1 > (toString v).length
    · simp [hlen] at hj
    · have hlen' : j + 1 ≤ (toString v).length := by omega
      have hpos : 0 < 10 ^ ((toString v).length - (j + 1)) := by positivity
      have hlo : v / 10 ^ ((toString v).length - (j + 1)) *
          10 ^ ((toString v).length - (j + 1)) ≤ v := Nat.div_mul_le_self _ _
      have hsplit : 10 ^ (toString v).length =
          10 ^ (j + 1) * 10 ^ ((toString v).length - (j + 1)) := by
        rw [← pow_add]; congr 1; omega
      have hq : v / 10 ^ ((toString v).length - (j + 1)) < 10 ^ (j + 1) := by
        rw [Nat.div_lt_iff_lt_mul hpos, ← hsplit]; exact hv
      have hhi : v / 10 ^ ((toString v).length - (j + 1)) *
          10 ^ ((toString v).length - (j + 1)) + 10 ^ ((toString v).length - (j + 1)) ≤
          10 ^ (toString v).length := by
        rw [hsplit]
        calc v / 10 ^ ((toString v).length - (j + 1)) *
              10 ^ ((toString v).length - (j + 1)) + 10 ^ ((toString v).length - (j + 1))
            = (v / 10 ^ ((toString v).length - (j + 1)) + 1) *
              10 ^ ((toString v).length - (j + 1)) := by ring
          _ ≤ 10 ^ (j + 1) * 10 ^ ((toString v).length - (j + 1)) :=
              Nat.mul_le_mul_right _ hq
      have hlo' := hlo.trans hv.le
      split_ifs at hj <;> simp only [Option.some.injEq] at hj <;>
        first
          | exact absurd hj (by simp)
          | (subst hj; first | exact hlo' | exact hhi)

/-- Below `10^21` the text `toString()` writes for a double holds only digits, and
`parseInt` reads the double back from it. -/
theorem numberText_roundtrip (c : Nat) (hd : roundToDouble c = c) (hlt : c < 10 ^ 21) :
    (Num.int c).numberText.isEmpty = false ∧ parseInt (Num.int c).numberText = .int c := by
  by_cases hs : c ≤ 2 ^ 53
  · rw [numberText_of_le c hs]
    exact ⟨toText_not_empty c, parseInt_toText c hs⟩
  · have hneg : ¬ ((c : Int) < 0) := by omega
    have hlen : (toString c).length ≤ 21 := Nat.repr_length c 21 (by decide) hlt
    have hw1 : shortestDecimal c ≤ 10 ^ 21 :=
      (shortestDecimal_le c).trans (Nat.pow_le_pow_right (by decide) hlen)
    have hr := shortestDecimal_round c hd
    have hw2 : shortestDecimal c ≠ 10 ^ 21 := by
      intro e
      rw [e] at hr
      have e21 : roundToDouble (10 ^ 21) = 10 ^ 21 := by decide
      omega
    have hw : shortestDecimal c < 10 ^ 21 := lt_of_le_of_ne hw1 hw2
    have hwl : (toString (shortestDecimal c)).length ≤ 21 :=
      Nat.repr_length _ 21 (by decide) hw
    have e : (Num.int c).numberText = toString (shortestDecimal c) := by
      have hs2 : ¬ (c ≤ 9007199254740992) := by norm_num at hs; omega
      simp only [Num.numberText, Int.natAbs_ofNat, hs2, hneg, if_false, exponentText]
      simp [hwl]
    obtain ⟨h1, h2, h3⟩ := toString_decimal (shortestDecimal c)
    rw [e]
    refine ⟨?_, ?_⟩
    · rw [Bool.eq_false_iff]
      intro h
      rw [String.isEmpty_iff] at h
      rw [h] at h1
      exact h1 rfl
    · rw [parseInt_decimal _ h1 h2, h3, hr]

end StoredCount

/-! ## Claims -/

/-- C10: in a running state whose only interval is `id` and whose `timeLeft` is `n`,
`k < n` ticks succeed and leave `timeLeft = n - k`, the engine still running with the
same single interval, and `currentMode`, `settings` and `pomodoroCount` as they were. -/
theorem countdown_before_zero (s : State) (id : Nat) (n : Int) (k : Nat)
    (hrun : s.isRunning = true) (hsrc : s.timers = [id]) (hleft : s.timeLeft = .int n)
    (hk : (k : Int) < n) :
    ∃ t, fireN id k s = some t ∧ t.timeLeft = .int (n - k) ∧ t.isRunning = true ∧
      t.timers = [id] ∧ t.currentMode = s.currentMode ∧ t.settings = s.settings ∧
      t.pomodoroCount = s.pomodoroCount := by
  obtain ⟨t, ht, r1, r2, r3, r4, r5, r6, -, -⟩ :=
    fireN_countdown id k s n (by simp [hsrc]) hleft hk
  exact ⟨t, ht, r1, r2.trans hrun, r6.trans hsrc, r3, r4, r5⟩

/-- Three ticks after `start` on a fresh page: 1497 seconds are left (C10 at a state). -/
theorem countdown_before_zero_witness :
    (start freshPage).isRunning = true ∧ (start freshPage).timers = [1] ∧
      (start freshPage).timeLeft = .int 1500 ∧ ((3 : Nat) : Int) < 1500 ∧
      ∃ t, fireN 1 3 (start freshPage) = some t ∧ t.timeLeft = .int (1500 - (3 : Nat)) ∧
        t.isRunning = true ∧ t.timers = [1] ∧
        t.currentMode = (start freshPage).currentMode ∧
        t.settings = (start freshPage).settings ∧
        t.pomodoroCount = (start freshPage).pomodoroCount :=
  ⟨rfl, rfl, rfl, by decide,
    countdown_before_zero (start freshPage) 1 1500 3 rfl rfl rfl (by decide)⟩

/-- C1 fails as stated: with the stored count `abc` the engine holds the count `NaN`;
its one-minute focus phase, in mode `pomodoro`, running with the single interval 1 and
`timeLeft = 60`, ends after 60 ticks idle at `timeLeft = 0` with the count still `NaN`,
not risen by 1. -/
theorem nan_count_does_not_rise :
    (nanCountStart.map fun s =>
        (s.currentMode, s.isRunning, s.timers, s.timeLeft, s.pomodoroCount)) =
        some ("pomodoro", true, [1], .int 60, .nan) ∧
      ((nanCountStart.bind (fireN 1 60)).map fun t =>
        (t.pomodoroCount, t.isRunning, t.timeLeft)) = some (.nan, false, .int 0) := by
  constructor <;> decide

/-- C1 as amended: in mode `pomodoro`, running, with the single interval `id` and
`timeLeft = n >= 1`, exactly `n` ticks succeed, and after them `isRunning` is false,
`timeLeft` is 0, and an integer `pomodoroCount` `c` below `2^53` in absolute value has
become `c + 1`, while a `pomodoroCount` that is `NaN` stays `NaN`. -/
theorem focus_countdown_completes (s : State) (id : Nat) (n : Nat)
    (hmode : s.currentMode = "pomodoro") (_hrun : s.isRunning = true)
    (hsrc : s.timers = [id]) (hleft : s.timeLeft = .int n) (hn : 1 ≤ n) :
    ∃ t, fireN id n s = some t ∧
      (∀ c : Int, s.pomodoroCount = .int c → c.natAbs < 2 ^ 53 →
        t.pomodoroCount = .int (c + 1)) ∧
      (s.pomodoroCount = .nan → t.pomodoroCount = .nan) ∧
      t.isRunning = false ∧ t.timeLeft = .int 0 := by
  obtain ⟨m, rfl⟩ : ∃ m, n = m + 1 := ⟨n - 1, by omega⟩
  obtain ⟨u, hu, r1, -, r3, -, r5, r6, -, -⟩ :=
    fireN_countdown id m s ((m + 1 : Nat) : Int) (by simp [hsrc]) hleft (by push_cast; omega)
  have hu1 : u.timeLeft = .int 1 := by rw [r1]; congr 1; push_cast; ring
  have hz : u.timeLeft.dec.leZero = true := by simp [hu1, Num.dec, Num.leZero]
  have hcount : (tick u).pomodoroCount = s.pomodoroCount.inc := by
    simp [tick_pomodoroCount, hz, r3, hmode, r5]
  refine ⟨tick u, ?_, ?_, ?_, ?_, ?_⟩
  · rw [fireN_add, hu]
    simp [fireN, fire, r6, hsrc]
  · intro c hc _; rw [hcount, hc]; rfl
  · intro hc; rw [hcount, hc]; rfl
  · simp [tick_isRunning, hz]
  · simp [hu1, Num.dec]

/-- A one-minute focus phase, started with no pomodoro counted, after sixty ticks: the
count is 1 (C1 as amended, at a state). -/
theorem focus_countdown_completes_witness :
    (start (saveSettings minuteForm freshPage)).currentMode = "pomodoro" ∧
      (start (saveSettings minuteForm freshPage)).isRunning = true ∧
      (start (saveSettings minuteForm freshPage)).timers = [1] ∧
      (start (saveSettings minuteForm freshPage)).timeLeft = .int (60 : Nat) ∧
      (start (saveSettings minuteForm freshPage)).pomodoroCount = .int 0 ∧
      ∃ t, fireN 1 60 (start (saveSettings minuteForm freshPage)) = some t ∧
        t.pomodoroCount = .int 1 ∧ t.isRunning = false ∧ t.timeLeft = .int 0 := by
  obtain ⟨t, ht, h1, -, h3, h4⟩ :=
    focus_countdown_completes (start (saveSettings minuteForm freshPage)) 1 60
      (by decide) (by decide) (by decide) (by decide) (by decide)
  exact ⟨by decide, by decide, by decide, by decide, by decide,
    t, ht, h1 0 (by decide) (by decide), h3, h4⟩

set_option maxRecDepth 8192 in
/-- C2 fails as stated: after a focus phase has run to zero and the engine is started
again, the tick of the held interval 2 takes `timeLeft` from 0 to -1 and counts a second
pomodoro, so the count rises although `timeLeft` was not brought to exactly 0. -/
theorem count_rises_below_zero :
    (afterRestart.map fun s =>
        (s.currentMode, s.isRunning, s.timers, s.timeLeft, s.pomodoroCount)) =
        some ("pomodoro", true, [2], .int 0, .int 1) ∧
      ((afterRestart.bind (fire 2)).map fun t => (t.timeLeft, t.pomodoroCount)) =
        some (.int (-1), .int 2) ∧
      ¬ ∀ (h : Host) (s0 s t : State) (o : Op), construct h = some s0 →
          s0.settings.positive → Reachable AnyOp s0 s → AnyOp o s → step o s = some t →
          t.pomodoroCount ≠ s.pomodoroCount → t.timeLeft = .int 0 := by
  refine ⟨by decide, by decide, fun all => ?_⟩
  have hc : construct bareHost = some freshPage := by decide
  have hrun : ∃ s, runAny restartOps freshPage = some s ∧ s.isRunning = true ∧
      (tick s).pomodoroCount ≠ s.pomodoroCount ∧ (tick s).timeLeft ≠ .int 0 ∧
      step (.tick 2) s = some (tick s) := by decide
  obtain ⟨s, hs, hr, hne, hleft, hstep⟩ := hrun
  exact hleft (all bareHost freshPage s (tick s) (.tick 2) hc (by decide)
    (reachable_runAny _ _ _ _ .init hs) hr hstep hne)

/-- C2 as amended: over every operation from every state `pomodoroCount` stays or is
incremented once; it changes only by a tick in mode `pomodoro` whose decrement makes
`timeLeft <= 0` true, which is exactly 0 when the tick began with at least one second
left; in any other mode no operation changes it, and `complete` itself increments it in
mode `pomodoro` and leaves it alone otherwise. -/
theorem count_changes_only_on_focus_completion (o : Op) (s t : State)
    (h : step o s = some t) :
    (t.pomodoroCount = s.pomodoroCount ∨ t.pomodoroCount = s.pomodoroCount.inc) ∧
      (t.pomodoroCount ≠ s.pomodoroCount →
        (∃ id, o = .tick id) ∧ s.currentMode = "pomodoro" ∧
          t.timeLeft = s.timeLeft.dec ∧ t.timeLeft.leZero = true) ∧
      (∀ n : Int, s.timeLeft = .int n → 1 ≤ n → t.pomodoroCount ≠ s.pomodoroCount →
        t.timeLeft = .int 0) ∧
      (s.currentMode ≠ "pomodoro" → t.pomodoroCount = s.pomodoroCount) ∧
      (complete s).pomodoroCount =
        (if s.currentMode = "pomodoro" then s.pomodoroCount.inc else s.pomodoroCount) := by
  have same : t.pomodoroCount = s.pomodoroCount →
      (t.pomodoroCount = s.pomodoroCount ∨ t.pomodoroCount = s.pomodoroCount.inc) ∧
      (t.pomodoroCount ≠ s.pomodoroCount →
        (∃ id, o = .tick id) ∧ s.currentMode = "pomodoro" ∧
          t.timeLeft = s.timeLeft.dec ∧ t.timeLeft.leZero = true) ∧
      (∀ n : Int, s.timeLeft = .int n → 1 ≤ n → t.pomodoroCount ≠ s.pomodoroCount →
        t.timeLeft = .int 0) ∧
      (s.currentMode ≠ "pomodoro" → t.pomodoroCount = s.pomodoroCount) ∧
      (complete s).pomodoroCount =
        (if s.currentMode = "pomodoro" then s.pomodoroCount.inc else s.pomodoroCount) :=
    fun e => ⟨Or.inl e, fun ne => absurd e ne, fun _ _ _ ne => absurd e ne, fun _ => e,
      complete_pomodoroCount s⟩
  cases o with
  | start => cases h; exact same (by simp)
  | pause => cases h; exact same (by simp)
  | toggleTimer =>
    cases h; apply same
    unfold toggleTimer; split_ifs <;> simp
  | resetTimer => cases h; exact same (by simp)
  | switchMode mode confirmed => cases h; exact same (by simp)
  | saveSettings form => cases h; exact same (by simp)
  | tick id =>
    simp only [step, fire] at h
    split_ifs at h
    cases h
    by_cases hz : s.timeLeft.dec.leZero = true ∧ s.currentMode = "pomodoro"
    · have hc : (tick s).pomodoroCount = s.pomodoroCount.inc := by
        rw [tick_pomodoroCount, if_pos hz]
      refine ⟨Or.inr hc, fun _ => ⟨⟨id, rfl⟩, hz.2, tick_timeLeft s, ?_⟩, ?_,
        fun hm => absurd hz.2 hm, complete_pomodoroCount s⟩
      · rw [tick_timeLeft]; exact hz.1
      · intro n hn h1 _
        have h0 := hz.1
        rw [hn] at h0
        simp only [Num.dec, Num.leZero, decide_eq_true_eq] at h0
        rw [tick_timeLeft, hn]
        simp only [Num.dec]
        congr 1; omega
    · exact same (by rw [tick_pomodoroCount, if_neg hz])

/-- The tick that ends a focus phase, and what C2 says of it. -/
theorem count_changes_only_on_focus_completion_witness :
    step (.tick 1) lastSecond = some (tick lastSecond) ∧
      ((tick lastSecond).pomodoroCount = lastSecond.pomodoroCount ∨
          (tick lastSecond).pomodoroCount = lastSecond.pomodoroCount.inc) ∧
        ((tick lastSecond).pomodoroCount ≠ lastSecond.pomodoroCount →
          (∃ id, Op.tick 1 = .tick id) ∧ lastSecond.currentMode = "pomodoro" ∧
            (tick lastSecond).timeLeft = lastSecond.timeLeft.dec ∧
            (tick lastSecond).timeLeft.leZero = true) ∧
        (∀ n : Int, lastSecond.timeLeft = .int n → 1 ≤ n →
          (tick lastSecond).pomodoroCount ≠ lastSecond.pomodoroCount →
          (tick lastSecond).timeLeft = .int 0) ∧
        (lastSecond.currentMode ≠ "pomodoro" →
          (tick lastSecond).pomodoroCount = lastSecond.pomodoroCount) ∧
        (complete lastSecond).pomodoroCount =
          (if lastSecond.currentMode = "pomodoro" then lastSecond.pomodoroCount.inc
            else lastSecond.pomodoroCount) :=
  ⟨by decide,
    count_changes_only_on_focus_completion (.tick 1) lastSecond (tick lastSecond) (by decide)⟩

/-- C3 fails as stated: on a fresh page, a one-minute focus phase run to zero and started
again ticks to `timeLeft = -1`; every tick of the run is taken while running and the
durations saved are positive, so a reachable state has a negative `timeLeft` and
nothing clamps it. -/
theorem timeLeft_negative_after_restart :
    (((construct bareHost).bind (runAny (restartOps ++ [.tick 2]))).map fun t => t.timeLeft) =
        some (.int (-1)) ∧
      ¬ ∀ (h : Host) (s0 s : State), construct h = some s0 → s0.settings.positive →
          Reachable AnyOp s0 s → Num.int 0 ≤ s.timeLeft := by
  refine ⟨by decide, fun all => ?_⟩
  have hc : construct bareHost = some freshPage := by decide
  have hrun : ∃ t, runAny (restartOps ++ [.tick 2]) freshPage = some t ∧
      t.timeLeft = .int (-1) := by decide
  obtain ⟨t, ht, hneg⟩ := hrun
  have := all bareHost freshPage t hc (by decide) (reachable_runAny _ _ _ _ .init ht)
  rw [hneg] at this
  exact absurd this (by decide)

/-- C3 as amended: from the constructed engine with positive settings, through any
operations in which `start` is called only on an idle engine with at least one second
left, `timeLeft` is an integer `>= 0`; a tick of a held interval subtracts exactly 1,
and when its result satisfies `timeLeft <= 0` that result is exactly 0 and the engine
has stopped.  No clamp is involved. -/
theorem timeLeft_nonneg_guarded (h : Host) (s0 s : State) (hc : construct h = some s0)
    (hp : s0.settings.positive) (hr : Reachable StartGuarded s0 s) :
    Num.int 0 ≤ s.timeLeft ∧
      ∀ id t, fire id s = some t →
        t.timeLeft = s.timeLeft.dec ∧ Num.int 0 ≤ t.timeLeft ∧
          (s.timeLeft.dec.leZero = true → t.timeLeft = .int 0 ∧ t.isRunning = false) := by
  have inv := countdown_reachable (countdown_construct h s0 hc hp) hr
  constructor
  · obtain ⟨-, ⟨n, hn, h0, -⟩, -, -⟩ := inv
    rw [hn]; exact h0
  · intro id t ht
    simp only [fire] at ht
    split_ifs at ht with hid
    cases ht
    obtain ⟨inv', hz⟩ := countdown_tick inv id hid
    refine ⟨tick_timeLeft s, ?_, fun h0 => ⟨(hz h0).1, (hz h0).2.1⟩⟩
    obtain ⟨-, ⟨n, hn, h0, -⟩, -, -⟩ := inv'
    rw [hn]; exact h0

/-- The engine started on a fresh page (C3 as amended, at a state). -/
theorem timeLeft_nonneg_guarded_witness :
    construct bareHost = some freshPage ∧ freshPage.settings.positive ∧
      Reachable StartGuarded freshPage (start freshPage) ∧
      Num.int 0 ≤ (start freshPage).timeLeft ∧
      ∀ id t, fire id (start freshPage) = some t →
        t.timeLeft = (start freshPage).timeLeft.dec ∧ Num.int 0 ≤ t.timeLeft ∧
          ((start freshPage).timeLeft.dec.leZero = true →
            t.timeLeft = .int 0 ∧ t.isRunning = false) :=
  ⟨by decide, by decide, .step .start .init ⟨by decide, by decide⟩ rfl,
    timeLeft_nonneg_guarded bareHost freshPage (start freshPage) (by decide) (by decide)
      (.step .start .init ⟨by decide, by decide⟩ rfl)⟩

/-- C4 fails as stated: on a fresh page, `start` and then `saveSettings` with a focus
time of one minute leave the running engine at `timeLeft = 1500` while
`getModeTime() * 60` is 60. -/
theorem timeLeft_exceeds_saved_duration :
    (((construct bareHost).bind (runAny [.start, .saveSettings minuteForm])).map fun t =>
        (t.isRunning, t.timeLeft, (getModeTime t).times60)) =
        some (true, .int 1500, .int 60) ∧
      ¬ ∀ (h : Host) (s0 s : State), construct h = some s0 → s0.settings.positive →
          Reachable AnyOp s0 s → s.timeLeft ≤ (getModeTime s).times60 := by
  refine ⟨by decide, fun all => ?_⟩
  have hc : construct bareHost = some freshPage := by decide
  have hrun : ∃ t, runAny [.start, .saveSettings minuteForm] freshPage = some t ∧
      ¬ t.timeLeft ≤ (getModeTime t).times60 := by decide
  obtain ⟨t, ht, hneg⟩ := hrun
  exact hneg (all bareHost freshPage t hc (by decide) (reachable_runAny _ _ _ _ .init ht))

/-- C4 as amended: from a state with positive settings in which the bound holds, as
the engine constructed with nothing stored, through any operations in which
`saveSettings` is called with positive durations and only while the engine is not
running, `timeLeft <= getModeTime() * 60` holds for the current mode and settings. -/
theorem timeLeft_le_duration (s0 s : State) (hp : s0.settings.positive)
    (hb : s0.timeLeft ≤ (getModeTime s0).times60) (hr : Reachable SaveIdle s0 s) :
    s.timeLeft ≤ (getModeTime s).times60 :=
  (bounded_reachable ⟨hp, hb⟩ hr).2

/-- The engine of a fresh page, its settings saved while idle and then started (C4 as
amended, at a state). -/
theorem timeLeft_le_duration_witness :
    construct bareHost = some freshPage ∧ freshPage.settings.positive ∧
      freshPage.timeLeft ≤ (getModeTime freshPage).times60 ∧
      Reachable SaveIdle freshPage (start (saveSettings minuteForm freshPage)) ∧
      (start (saveSettings minuteForm freshPage)).timeLeft ≤
        (getModeTime (start (saveSettings minuteForm freshPage))).times60 :=
  ⟨by decide, by decide, by decide,
    .step .start (.step (.saveSettings minuteForm) .init ⟨by decide, by decide⟩ rfl) trivial rfl,
    timeLeft_le_duration freshPage (start (saveSettings minuteForm freshPage)) (by decide)
      (by decide)
      (.step .start (.step (.saveSettings minuteForm) .init ⟨by decide, by decide⟩ rfl)
        trivial rfl)⟩

/-- C5 fails as stated: on the engine of a fresh page a second `start()` installs a
second interval, so the state differs from that of one call, one second takes
`timeLeft` from 1500 to 1498, and after a single `pause()` the interval 1 is still
held and goes on ticking. -/
theorem second_start_adds_interval :
    (start (start freshPage)).timers = [1, 2] ∧ (start freshPage).timers = [1] ∧
      start (start freshPage) ≠ start freshPage ∧
      (start freshPage).timeLeft = .int 1500 ∧
      (elapse (start (start freshPage))).timeLeft = .int 1498 ∧
      (pause (start (start freshPage))).timers = [1] ∧
      (elapse (pause (start (start freshPage)))).timeLeft = .int 1499 := by
  refine ⟨by decide, by decide, by decide, by decide, by decide, by decide, by decide⟩

/-- C5 as amended: `start()` on an engine that holds no interval leaves exactly one
held, each second then takes 1 from `timeLeft`, and a single `pause()` stops all
ticking; `toggleTimer`, the only caller of `start()`, pauses a running engine instead
of starting it again, while a second `start()` itself is no no-op and adds an interval. -/
theorem start_once_single_source (s : State) (hidle : s.timers = []) :
    (start s).timers = [s.nextTimer] ∧ (start s).isRunning = true ∧
      (elapse (start s)).timeLeft = s.timeLeft.dec ∧
      (pause (start s)).timers = [] ∧ (pause (start s)).isRunning = false ∧
      elapse (pause (start s)) = pause (start s) ∧
      toggleTimer (start s) = pause (start s) ∧
      (start (start s)).timers = [s.nextTimer, s.nextTimer + 1] := by
  have h1 : (start s).timers = [s.nextTimer] := by simp [hidle]
  have h2 : (pause (start s)).timers = [] := by
    rw [pause_timers]; exact clearInterval_single _ _ (by simp) h1
  refine ⟨h1, by simp, ?_, h2, by simp, elapse_none _ h2, by simp [toggleTimer], ?_⟩
  · rw [elapse_single _ _ h1]; simp
  · simp [hidle]

/-- The engine of a fresh page started once (C5 as amended, at a state). -/
theorem start_once_single_source_witness :
    freshPage.timers = [] ∧
      (start freshPage).timers = [freshPage.nextTimer] ∧ (start freshPage).isRunning = true ∧
      (elapse (start freshPage)).timeLeft = freshPage.timeLeft.dec ∧
      (pause (start freshPage)).timers = [] ∧ (pause (start freshPage)).isRunning = false ∧
      elapse (pause (start freshPage)) = pause (start freshPage) ∧
      toggleTimer (start freshPage) = pause (start freshPage) ∧
      (start (start freshPage)).timers = [freshPage.nextTimer, freshPage.nextTimer + 1] :=
  ⟨by decide, start_once_single_source freshPage (by decide)⟩

/-- C6, the code at a stored focus time of ten minutes: the constructed engine is in
mode `pomodoro` and idle, its settings hold the ten minutes (600 seconds), and
`timeLeft` is still the 1500 seconds of the default. -/
theorem init_keeps_default_timeLeft :
    ((construct tenMinuteHost).map fun s =>
        (s.currentMode, s.isRunning, s.settings.pomodoroTime, s.settings.pomodoroTime.times60,
          s.timeLeft)) =
      some ("pomodoro", false, .num (.int 10), .int 600, .int 1500) := by
  decide

/-- C7: in each of the three modes, and after any number of ticks from there,
`resetTimer()` yields `timeLeft == getModeTime() * 60` for that mode under the current
settings and `isRunning == false`, with mode, settings and `pomodoroCount` unchanged. -/
theorem resetTimer_restores (s : State) :
    (resetTimer s).timeLeft = (getModeTime s).times60 ∧
      (resetTimer s).timeLeft = (getModeTime (resetTimer s)).times60 ∧
      (s.currentMode = "pomodoro" → (resetTimer s).timeLeft = s.settings.pomodoroTime.times60) ∧
      (s.currentMode = "shortBreak" →
        (resetTimer s).timeLeft = s.settings.shortBreakTime.times60) ∧
      (s.currentMode = "longBreak" →
        (resetTimer s).timeLeft = s.settings.longBreakTime.times60) ∧
      (resetTimer s).isRunning = false ∧ (resetTimer s).currentMode = s.currentMode ∧
      (resetTimer s).settings = s.settings ∧
      (resetTimer s).pomodoroCount = s.pomodoroCount ∧
      ∀ id k t, fireN id k s = some t →
        (resetTimer t).timeLeft = (getModeTime s).times60 ∧ (resetTimer t).isRunning = false ∧
          (resetTimer t).currentMode = s.currentMode ∧ (resetTimer t).settings = s.settings := by
  have h := resetTimer_timeLeft s
  refine ⟨h, ?_, ?_, ?_, ?_, by simp, by simp, by simp, by simp, ?_⟩
  · rw [h]; exact congrArg _ (getModeTime_congr (by simp) (by simp)).symm
  · intro hm; rw [h]; simp [getModeTime, hm]
  · intro hm; rw [h]; simp [getModeTime, hm]
  · intro hm; rw [h]; simp [getModeTime, hm]
  · intro id k t ht
    obtain ⟨h1, h2⟩ := fireN_frame id k s t ht
    refine ⟨?_, by simp, by simpa using h2, by simpa using h1⟩
    rw [resetTimer_timeLeft]
    exact congrArg _ (getModeTime_congr h2 h1)

/-- A short break reset after three ticks is back at its five minutes (C7 at a state). -/
theorem resetTimer_restores_witness :
    fireN 1 3 (start (switchMode "shortBreak" true freshPage)) =
        some (tick (tick (tick (start (switchMode "shortBreak" true freshPage))))) ∧
      (resetTimer (tick (tick (tick (start (switchMode "shortBreak" true freshPage)))))).timeLeft =
        .int 300 ∧
      (resetTimer (tick (tick (tick (start (switchMode "shortBreak" true freshPage)))))).isRunning =
        false :=
  ⟨by decide,
    ((resetTimer_restores (start (switchMode "shortBreak" true freshPage))).2.2.2.2.2.2.2.2.2
      1 3 _ (by decide)).1.trans (by decide),
    ((resetTimer_restores (start (switchMode "shortBreak" true freshPage))).2.2.2.2.2.2.2.2.2
      1 3 _ (by decide)).2.1⟩

/-- C8: for every state and target mode, `switchMode(target)` with the dialog confirmed,
or on an idle engine, yields `currentMode == target`, `isRunning == false` and
`timeLeft` the duration of the target in the current settings times 60, the target being
the current mode included: the integer `p * 60` where the settings hold for the target an
integer `p` whose product with 60 is at most `2^53` in absolute value; settings and
`pomodoroCount` stay. -/
theorem switchMode_resets (s : State) (target : String) (confirmed : Bool)
    (hgo : confirmed = true ∨ s.isRunning = false) :
    (switchMode target confirmed s).currentMode = target ∧
      (switchMode target confirmed s).isRunning = false ∧
      (switchMode target confirmed s).timeLeft = (durationOf s.settings target).times60 ∧
      (switchMode target confirmed s).timeLeft =
        (getModeTime (switchMode target confirmed s)).times60 ∧
      (target = "pomodoro" →
        (switchMode target confirmed s).timeLeft = s.settings.pomodoroTime.times60) ∧
      (target = "shortBreak" →
        (switchMode target confirmed s).timeLeft = s.settings.shortBreakTime.times60) ∧
      (target = "longBreak" →
        (switchMode target confirmed s).timeLeft = s.settings.longBreakTime.times60) ∧
      (target = s.currentMode →
        (switchMode target confirmed s).timeLeft = (getModeTime s).times60) ∧
      (switchMode target confirmed s).settings = s.settings ∧
      (switchMode target confirmed s).pomodoroCount = s.pomodoroCount ∧
      (∀ p : Int, target = "pomodoro" → s.settings.pomodoroTime = .num (.int p) →
        p.natAbs * 60 ≤ 2 ^ 53 → (switchMode target confirmed s).timeLeft = .int (p * 60)) ∧
      (∀ p : Int, target = "shortBreak" → s.settings.shortBreakTime = .num (.int p) →
        p.natAbs * 60 ≤ 2 ^ 53 → (switchMode target confirmed s).timeLeft = .int (p * 60)) ∧
      (∀ p : Int, target = "longBreak" → s.settings.longBreakTime = .num (.int p) →
        p.natAbs * 60 ≤ 2 ^ 53 → (switchMode target confirmed s).timeLeft = .int (p * 60)) ∧
      (∀ p : Int, target = s.currentMode → getModeTime s = .num (.int p) →
        p.natAbs * 60 ≤ 2 ^ 53 → (switchMode target confirmed s).timeLeft = .int (p * 60)) := by
  have hd : ¬ (s.isRunning && !confirmed) = true := by
    rcases hgo with h | h <;> simp [h]
  have hm : (switchMode target confirmed s).currentMode = target := by
    rw [switchMode_currentMode, if_neg hd]
  have ht : (switchMode target confirmed s).timeLeft = (durationOf s.settings target).times60 := by
    rw [switchMode_timeLeft, if_neg hd]
  refine ⟨hm, ?_, ht, ?_, ?_, ?_, ?_, ?_, by simp, by simp, ?_, ?_, ?_, ?_⟩
  · rw [switchMode_isRunning]; simpa using hd
  · rw [ht, getModeTime_eq, hm, switchMode_settings]
  · intro h; rw [ht, h]; rfl
  · intro h; rw [ht, h]; rfl
  · intro h; rw [ht, h]; rfl
  · intro h; rw [ht, h, getModeTime_eq]
  · intro p h hp _; rw [ht, h]; simp [durationOf, hp, Duration.times60]
  · intro p h hp _; rw [ht, h]; simp [durationOf, hp, Duration.times60]
  · intro p h hp _; rw [ht, h]; simp [durationOf, hp, Duration.times60]
  · intro p h hp _; rw [ht, h, ← getModeTime_eq, hp]; rfl

/-- The scenario of the specification: a running focus phase with ten seconds left,
switched to the short break of five minutes once confirmed, is idle in mode `shortBreak`
with 300 seconds left; switched to the focus mode it is in, it has its 1500 seconds
again (C8 at a state). -/
theorem switchMode_resets_witness :
    ((true = true ∨ tenSecondsLeft.isRunning = false) ∧ tenSecondsLeft.isRunning = true ∧
        tenSecondsLeft.timeLeft = .int 10 ∧ tenSecondsLeft.currentMode = "pomodoro" ∧
        tenSecondsLeft.settings.shortBreakTime = .num (.int 5) ∧
        tenSecondsLeft.settings.pomodoroTime = .num (.int 25) ∧
        (5 : Int).natAbs * 60 ≤ 2 ^ 53 ∧ (25 : Int).natAbs * 60 ≤ 2 ^ 53) ∧
      (switchMode "shortBreak" true tenSecondsLeft).currentMode = "shortBreak" ∧
      (switchMode "shortBreak" true tenSecondsLeft).isRunning = false ∧
      (switchMode "shortBreak" true tenSecondsLeft).timeLeft = .int 300 ∧
      (switchMode "pomodoro" true tenSecondsLeft).timeLeft = .int 1500 :=
  ⟨⟨Or.inl rfl, by decide, by decide, by decide, by decide, by decide, by decide, by decide⟩,
    (switchMode_resets tenSecondsLeft "shortBreak" true (Or.inl rfl)).1,
    (switchMode_resets tenSecondsLeft "shortBreak" true (Or.inl rfl)).2.1,
    (switchMode_resets tenSecondsLeft "shortBreak" true (Or.inl rfl)).2.2.2.2.2.2.2.2.2.2.2.1
      5 rfl (by decide) (by decide),
    (switchMode_resets tenSecondsLeft "pomodoro" true (Or.inl rfl)).2.2.2.2.2.2.2.2.2.2.1
      25 rfl (by decide) (by decide)⟩

/-- C9: `saveSettings` overwrites all five settings with what the inputs hold; on an idle
engine `timeLeft` becomes the new duration of the current mode times 60; on a running
engine `timeLeft` is unchanged, `pause`, `start` and a tick do not adopt the new duration
either, and the next `resetTimer` or `switchMode` does.  For the integers `p`, `q` and
`r` read for the focus, the short break and the long break, the new `timeLeft` is the
integer `p * 60`, `q * 60` or `r * 60` where that product is at most `2^53` in absolute
value. -/
theorem saveSettings_adopts_when_idle (s : State) (form : Form) (p q r : Int)
    (hp : parseInt form.pomodoroTime = .int p) (hq : parseInt form.shortBreakTime = .int q)
    (hr : parseInt form.longBreakTime = .int r) :
    (saveSettings form s).settings = readForm form ∧
      ((saveSettings form s).settings.pomodoroTime = .num (.int p) ∧
        (saveSettings form s).settings.shortBreakTime = .num (.int q) ∧
        (saveSettings form s).settings.longBreakTime = .num (.int r) ∧
        (saveSettings form s).settings.soundEnabled = form.soundEnabled ∧
        (saveSettings form s).settings.notificationEnabled = form.notificationEnabled) ∧
      (s.isRunning = false →
        (saveSettings form s).timeLeft = (getModeTime (saveSettings form s)).times60 ∧
          (s.currentMode = "pomodoro" → p.natAbs * 60 ≤ 2 ^ 53 →
            (saveSettings form s).timeLeft = .int (p * 60)) ∧
          (s.currentMode = "shortBreak" → q.natAbs * 60 ≤ 2 ^ 53 →
            (saveSettings form s).timeLeft = .int (q * 60)) ∧
          (s.currentMode = "longBreak" → r.natAbs * 60 ≤ 2 ^ 53 →
            (saveSettings form s).timeLeft = .int (r * 60))) ∧
      (s.isRunning = true →
        (saveSettings form s).timeLeft = s.timeLeft ∧
          (pause (saveSettings form s)).timeLeft = s.timeLeft ∧
          (start (saveSettings form s)).timeLeft = s.timeLeft ∧
          (tick (saveSettings form s)).timeLeft = s.timeLeft.dec ∧
          (resetTimer (saveSettings form s)).timeLeft =
            (durationOf (readForm form) s.currentMode).times60 ∧
          (s.currentMode = "pomodoro" → p.natAbs * 60 ≤ 2 ^ 53 →
            (resetTimer (saveSettings form s)).timeLeft = .int (p * 60)) ∧
          (s.currentMode = "shortBreak" → q.natAbs * 60 ≤ 2 ^ 53 →
            (resetTimer (saveSettings form s)).timeLeft = .int (q * 60)) ∧
          (s.currentMode = "longBreak" → r.natAbs * 60 ≤ 2 ^ 53 →
            (resetTimer (saveSettings form s)).timeLeft = .int (r * 60)) ∧
          (∀ mode, (switchMode mode true (saveSettings form s)).timeLeft =
            (durationOf (readForm form) mode).times60) ∧
          (p.natAbs * 60 ≤ 2 ^ 53 →
            (switchMode "pomodoro" true (saveSettings form s)).timeLeft = .int (p * 60)) ∧
          (q.natAbs * 60 ≤ 2 ^ 53 →
            (switchMode "shortBreak" true (saveSettings form s)).timeLeft = .int (q * 60)) ∧
          (r.natAbs * 60 ≤ 2 ^ 53 →
            (switchMode "longBreak" true (saveSettings form s)).timeLeft = .int (r * 60))) := by
  have dp : ∀ m, m = "pomodoro" → (durationOf (readForm form) m).times60 = .int (p * 60) := by
    intro m hm; simp [durationOf, hm, readForm, hp, Duration.times60]
  have dq : ∀ m, m = "shortBreak" → (durationOf (readForm form) m).times60 = .int (q * 60) := by
    intro m hm; simp [durationOf, hm, readForm, hq, Duration.times60]
  have dr : ∀ m, m = "longBreak" → (durationOf (readForm form) m).times60 = .int (r * 60) := by
    intro m hm; simp [durationOf, hm, readForm, hr, Duration.times60]
  have hreset : (resetTimer (saveSettings form s)).timeLeft =
      (durationOf (readForm form) s.currentMode).times60 := by
    rw [resetTimer_timeLeft, getModeTime_eq]; simp
  have hswitch : ∀ mode, (switchMode mode true (saveSettings form s)).timeLeft =
      (durationOf (readForm form) mode).times60 := by
    intro mode; rw [switchMode_timeLeft]; simp
  refine ⟨by simp, ⟨by simp [readForm, hp], by simp [readForm, hq], by simp [readForm, hr],
    by simp [readForm], by simp [readForm]⟩, fun hrun => ?_, fun hrun => ?_⟩
  · have hidle : (saveSettings form s).timeLeft =
        (durationOf (readForm form) s.currentMode).times60 := by
      rw [saveSettings_timeLeft]; simp [hrun]
    refine ⟨?_, fun hm _ => ?_, fun hm _ => ?_, fun hm _ => ?_⟩
    · rw [hidle, getModeTime_eq]; simp
    · rw [hidle]; exact dp _ hm
    · rw [hidle]; exact dq _ hm
    · rw [hidle]; exact dr _ hm
  · have h0 : (saveSettings form s).timeLeft = s.timeLeft := by
      rw [saveSettings_timeLeft]; simp [hrun]
    refine ⟨h0, by simp [h0], by simp [h0], by simp [h0], hreset, fun hm _ => ?_,
      fun hm _ => ?_, fun hm _ => ?_, hswitch, fun _ => ?_, fun _ => ?_, fun _ => ?_⟩
    · rw [hreset]; exact dp _ hm
    · rw [hreset]; exact dq _ hm
    · rw [hreset]; exact dr _ hm
    · rw [hswitch]; exact dp _ rfl
    · rw [hswitch]; exact dq _ rfl
    · rw [hswitch]; exact dr _ rfl

/-- The scenarios of the specification: the focus time set to one minute on the idle engine
of a fresh page gives 60 seconds at once, and on the started engine leaves the 1500
seconds until the next reset; the panel of `sampleForm`, saved on an idle engine in the
short break, fills all five settings and gives the 420 seconds of its seven minutes
(C9 at three states). -/
theorem saveSettings_adopts_when_idle_witness :
    (parseInt minuteForm.pomodoroTime = .int 1 ∧ parseInt sampleForm.pomodoroTime = .int 30 ∧
        parseInt sampleForm.shortBreakTime = .int 7 ∧
        parseInt sampleForm.longBreakTime = .int 20 ∧
        (1 : Int).natAbs * 60 ≤ 2 ^ 53 ∧ (7 : Int).natAbs * 60 ≤ 2 ^ 53) ∧
      (saveSettings minuteForm freshPage).timeLeft = .int 60 ∧
      (saveSettings minuteForm (start freshPage)).timeLeft = .int 1500 ∧
      (resetTimer (saveSettings minuteForm (start freshPage))).timeLeft = .int 60 ∧
      (saveSettings sampleForm (switchMode "shortBreak" true freshPage)).settings =
        { pomodoroTime := .num (.int 30), shortBreakTime := .num (.int 7),
          longBreakTime := .num (.int 20), soundEnabled := false,
          notificationEnabled := true } ∧
      (saveSettings sampleForm (switchMode "shortBreak" true freshPage)).timeLeft = .int 420 :=
  ⟨⟨by decide, by decide, by decide, by decide, by decide, by decide⟩,
    ((saveSettings_adopts_when_idle freshPage minuteForm 1 5 15 (by decide) (by decide)
      (by decide)).2.2.1 (by decide)).2.1 (by decide) (by decide),
    ((saveSettings_adopts_when_idle (start freshPage) minuteForm 1 5 15 (by decide) (by decide)
      (by decide)).2.2.2 (by decide)).1.trans (by decide),
    ((saveSettings_adopts_when_idle (start freshPage) minuteForm 1 5 15 (by decide) (by decide)
      (by decide)).2.2.2 (by decide)).2.2.2.2.2.1 (by decide) (by decide),
    (saveSettings_adopts_when_idle (switchMode "shortBreak" true freshPage) sampleForm
      30 7 20 (by decide) (by decide) (by decide)).1.trans (by decide),
    ((saveSettings_adopts_when_idle (switchMode "shortBreak" true freshPage) sampleForm
      30 7 20 (by decide) (by decide) (by decide)).2.2.1 (by decide)).2.2.1 (by decide)
      (by decide)⟩

/-- C11: in mode `pomodoro` the conditional of `complete` calls `showNotification` with
the body that suggests a long rest exactly when the incremented `pomodoroCount`
satisfies `pomodoroCount % 4 === 0`, and with the plain rest body otherwise; in any
other mode it calls it with the notification that the break has ended.  Where
notifications are shown, that one notification is what `complete` adds to the trace. -/
theorem completion_notification (s : State) :
    (s.currentMode = "pomodoro" → s.pomodoroCount.inc.mod4IsZero = true →
        completeCount s =
          showNotification "番茄完成！" "你已经完成了4个番茄，该休息一下了！"
            (saveToStorage (emit (.countText s.pomodoroCount.inc.toText)
              { s with pomodoroCount := s.pomodoroCount.inc }))) ∧
      (s.currentMode = "pomodoro" → s.pomodoroCount.inc.mod4IsZero = false →
        completeCount s =
          showNotification "番茄完成！" "休息一下吧！"
            (saveToStorage (emit (.countText s.pomodoroCount.inc.toText)
              { s with pomodoroCount := s.pomodoroCount.inc }))) ∧
      (s.currentMode ≠ "pomodoro" →
        completeCount s = showNotification "休息结束！" "准备开始新的番茄吧！" s) ∧
      (∀ c : Int, s.pomodoroCount = .int c →
        (s.pomodoroCount.inc.mod4IsZero = true ↔ (c + 1).tmod 4 = 0)) ∧
      (showsNotifications s = true →
        notifications (complete s).effects =
          notifications s.effects ++
            [if s.currentMode = "pomodoro" then
              ("番茄完成！",
                if s.pomodoroCount.inc.mod4IsZero then "你已经完成了4个番茄，该休息一下了！"
                else "休息一下吧！")
            else ("休息结束！", "准备开始新的番茄吧！")]) := by
  refine ⟨fun hm h4 => ?_, fun hm h4 => ?_, fun hm => ?_, fun c hc => ?_, fun hs => ?_⟩
  · simp only [completeCount, if_pos hm]
    exact if_pos h4
  · simp only [completeCount, if_pos hm]
    exact if_neg (Bool.eq_false_iff.mp h4)
  · simp [completeCount, hm]
  · simp [hc, Num.inc, Num.mod4IsZero]
  · rw [complete_effects, completeCount_effects]
    simp only [pause_effects, pause_currentMode, pause_pomodoroCount, pause_shows, hs,
      if_true, notifications_append]
    have tail : notifications
        (if s.settings.soundEnabled = false then [.modeText (some (getModeCompleteText s))]
          else if s.audioApi = true then [.tone, .modeText (some (getModeCompleteText s))]
          else [.typeError]) = [] := by
      split_ifs <;> rfl
    rw [tail]
    split_ifs <;> simp [notifications]

/-- The fourth pomodoro of a started focus phase suggests the long rest (C11 at a state). -/
theorem completion_notification_witness :
    ({ lastSecond with pomodoroCount := .int 3 } : State).currentMode = "pomodoro" ∧
      ({ lastSecond with pomodoroCount := .int 3 } : State).pomodoroCount.inc.mod4IsZero = true ∧
      completeCount { lastSecond with pomodoroCount := .int 3 } =
        showNotification "番茄完成！" "你已经完成了4个番茄，该休息一下了！"
          (saveToStorage (emit (.countText (Num.int 3).inc.toText)
            { lastSecond with pomodoroCount := (Num.int 3).inc })) :=
  ⟨by decide, by decide,
    (completion_notification { lastSecond with pomodoroCount := .int 3 }).1
      (by decide) (by decide)⟩

/-- C17: `start`, the tick callback, `pause`, `toggleTimer`, `resetTimer`, `switchMode`
and `complete` leave every field of `settings` as it was; `saveSettings` puts the
values of the inputs there. -/
theorem settings_frame (s : State) (mode : String) (confirmed : Bool) (form : Form) :
    (start s).settings = s.settings ∧ (tick s).settings = s.settings ∧
      (pause s).settings = s.settings ∧ (toggleTimer s).settings = s.settings ∧
      (resetTimer s).settings = s.settings ∧
      (switchMode mode confirmed s).settings = s.settings ∧
      (complete s).settings = s.settings ∧
      (∀ id k t, fireN id k s = some t → t.settings = s.settings) ∧
      (saveSettings form s).settings = readForm form := by
  refine ⟨by simp, by simp, by simp, ?_, by simp, by simp, by simp, ?_, by simp⟩
  · unfold toggleTimer; split_ifs <;> simp
  · intro id k t h; exact (fireN_frame id k s t h).1

/-- C20: on a running engine `switchMode(target)` with the dialog declined returns the
state it was given: `currentMode`, `timeLeft`, `isRunning`, `pomodoroCount`, `settings`,
`this.interval`, the intervals held and the trace are all as before the call. -/
theorem switchMode_declined_unchanged (s : State) (target : String)
    (hrun : s.isRunning = true) :
    switchMode target false s = s ∧
      (switchMode target false s).currentMode = s.currentMode ∧
      (switchMode target false s).timeLeft = s.timeLeft ∧
      (switchMode target false s).isRunning = true ∧
      (switchMode target false s).pomodoroCount = s.pomodoroCount ∧
      (switchMode target false s).settings = s.settings ∧
      (switchMode target false s).interval = s.interval ∧
      (switchMode target false s).timers = s.timers ∧
      (switchMode target false s).effects = s.effects := by
  have h := switchMode_declined s target hrun
  rw [h]
  exact ⟨rfl, rfl, rfl, hrun, rfl, rfl, rfl, rfl, rfl⟩

/-- A running focus phase with ten seconds left, the switch to the short break
declined (C20 at a state). -/
theorem switchMode_declined_unchanged_witness :
    tenSecondsLeft.isRunning = true ∧
      switchMode "shortBreak" false tenSecondsLeft = tenSecondsLeft ∧
      (switchMode "shortBreak" false tenSecondsLeft).timeLeft = .int 10 :=
  ⟨by decide, (switchMode_declined_unchanged tenSecondsLeft "shortBreak" (by decide)).1,
    (switchMode_declined_unchanged tenSecondsLeft "shortBreak" (by decide)).2.2.1.trans
      (by decide)⟩

/-- C19 fails as stated: `complete` on a running focus phase with one second left
writes the text of `pause` to the mode label before it writes the complete text; the
trace gains, in this order, the button text, the paused label, the count, the
notification, the tone and the complete label. -/
theorem complete_writes_paused_label :
    (complete lastSecond).effects.drop lastSecond.effects.length =
        [.startPauseText "继续", .modeText (some "已暂停"), .countText "1",
          .notification "番茄完成！" "休息一下吧！", .tone, .modeText (some "番茄完成！")] ∧
      Effect.modeText (some "已暂停") ∈
        (complete lastSecond).effects.drop lastSecond.effects.length := by
  constructor <;> decide

/-- C19 as amended: in every mode `complete()` forces `isRunning` to false and clears
the interval of `this.interval` by calling `pause()`, which writes the paused text to
the mode label; when `playSound` returns, the only other write to the label in the
transition is the last effect, the text of `getModeCompleteText()` for the current
mode, which is the label left showing. -/
theorem complete_label_last (s : State)
    (hsound : s.settings.soundEnabled = false ∨ s.audioApi = true) :
    (complete s).isRunning = false ∧ (complete s).timers = (clearInterval s).timers ∧
      (∀ id, s.interval = some id → s.timers = [id] → (complete s).timers = []) ∧
      (complete s).currentMode = s.currentMode ∧
      ∃ mid, (complete s).effects =
          s.effects ++ [.startPauseText "继续", .modeText (some "已暂停")] ++ mid ++
            [.modeText (some (getModeCompleteText s))] ∧
        ∀ e ∈ mid, ∀ text, e ≠ .modeText text := by
  refine ⟨by simp, complete_timers s, fun id hi ht => ?_, by simp, ?_⟩
  · rw [complete_timers]; exact clearInterval_single s id hi ht
  · obtain ⟨mid, hmid, hno⟩ := completeCount_trace (pause s)
    rw [complete_effects, hmid, pause_effects]
    by_cases h' : s.settings.soundEnabled = false
    · exact ⟨mid, by rw [if_pos h'], hno⟩
    · have ha : s.audioApi = true := hsound.resolve_left h'
      refine ⟨mid ++ [.tone], by rw [if_neg h', if_pos ha]; simp, ?_⟩
      intro e he text
      rcases List.mem_append.mp he with he | he
      · exact hno e he text
      · rw [List.mem_singleton.mp he]; simp

/-- The last second of a focus phase: the paused label, then the complete label last
(C19 as amended, at a state). -/
theorem complete_label_last_witness :
    (lastSecond.settings.soundEnabled = false ∨ lastSecond.audioApi = true) ∧
      (complete lastSecond).isRunning = false ∧
      (complete lastSecond).timers = (clearInterval lastSecond).timers ∧
      (∀ id, lastSecond.interval = some id → lastSecond.timers = [id] →
        (complete lastSecond).timers = []) ∧
      (complete lastSecond).currentMode = lastSecond.currentMode ∧
      ∃ mid, (complete lastSecond).effects =
          lastSecond.effects ++ [.startPauseText "继续", .modeText (some "已暂停")] ++ mid ++
            [.modeText (some (getModeCompleteText lastSecond))] ∧
        ∀ e ∈ mid, ∀ text, e ≠ .modeText text :=
  ⟨Or.inr (by decide), complete_label_last lastSecond (Or.inr (by decide))⟩

/-- C12 fails as stated: a focus time of a hundred minutes, saved on the idle engine of
a fresh page, gives `timeLeft = 6000`, which `updateDisplay` renders as `100:00`, six
characters with three digits of minutes. -/
theorem display_of_hundred_minutes :
    hundredForm.positive ∧ (saveSettings hundredForm freshPage).timeLeft = .int 6000 ∧
      displayText (.int 6000) = "100:00" ∧ (displayText (.int 6000)).length = 6 ∧
      Effect.timerDisplay "100:00" ∈ (saveSettings hundredForm freshPage).effects := by
  refine ⟨by decide, by decide, by decide, by decide, by decide⟩

/-- C12 as amended: for `0 <= timeLeft < 6000` the display is exactly the two decimal
digits of `floor(timeLeft / 60)`, a colon and the two decimal digits of `timeLeft % 60`;
for every `timeLeft >= 0` it is the decimal text of the minutes padded with zeros to at
least two characters, a colon and the two digits of the seconds, so from 6000 on the
minutes take three digits or more and the text is longer than five characters; distinct
values of `timeLeft >= 0` render to distinct texts, and `updateDisplay` writes that text
to the display and, with the title suffix, to the document title. -/
theorem display_format (n : Nat) :
    (n < 6000 →
        (displayText (.int n)).toList =
          [Nat.digitChar (n / 60 / 10), Nat.digitChar (n / 60 % 10), ':',
            Nat.digitChar (n % 60 / 10), Nat.digitChar (n % 60 % 10)]) ∧
      (displayText (.int n)).toList =
        List.replicate (2 - (toString (n / 60)).length) '0' ++ (toString (n / 60)).toList ++
          [':', Nat.digitChar (n % 60 / 10), Nat.digitChar (n % 60 % 10)] ∧
      (6000 ≤ n →
        (displayText (.int n)).toList =
            (toString (n / 60)).toList ++
              [':', Nat.digitChar (n % 60 / 10), Nat.digitChar (n % 60 % 10)] ∧
          6 ≤ (displayText (.int n)).length) ∧
      (∀ m : Nat, displayText (.int n) = displayText (.int m) → n = m) ∧
      ∀ s : State, s.timeLeft = .int n →
        (updateDisplay s).effects =
          s.effects ++ [.timerDisplay (displayText (.int n)),
            .title (displayText (.int n) ++ " - 番茄钟")] := by
  have hl := displayText_toList n
  refine ⟨fun hn => ?_, ?_, fun hn => ?_, fun m h => displayText_injective n m h,
    fun s hs => by rw [updateDisplay_effects, hs]⟩
  · rw [hl, padStart2_two_digits (n / 60) (by omega)]; rfl
  · rw [hl, padStart2_toList]
  · have h3 := toString_length_ge (n / 60) (by omega)
    have e : (displayText (.int n)).toList =
        (toString (n / 60)).toList ++
          [':', Nat.digitChar (n % 60 / 10), Nat.digitChar (n % 60 % 10)] := by
      rw [hl, padStart2_toList, show 2 - (toString (n / 60)).length = 0 by omega]; rfl
    refine ⟨e, ?_⟩
    have hlen : (displayText (.int n)).length = (displayText (.int n)).toList.length := rfl
    have h3' : (toString (n / 60)).length = (toString (n / 60)).toList.length := rfl
    rw [hlen, e, List.length_append]
    simp only [List.length_cons, List.length_nil]
    omega

/-- Ten seconds render as `00:10` (C12 as amended, at a value). -/
theorem display_format_witness :
    (10 : Nat) < 6000 ∧
      (displayText (.int (10 : Nat))).toList =
        [Nat.digitChar (10 / 60 / 10), Nat.digitChar (10 / 60 % 10), ':',
          Nat.digitChar (10 % 60 / 10), Nat.digitChar (10 % 60 % 10)] ∧
      displayText (.int (10 : Nat)) = "00:10" :=
  ⟨by decide, (display_format 10).1 (by decide), by decide⟩

/-- C14 fails as stated: with a stored settings text that is no JSON, `JSON.parse` throws
in `loadFromStorage`, nothing catches it, and the constructor does not return. -/
theorem malformed_settings_throw :
    malformedHost.storage.pomodoroSettings = some .malformed ∧
      loadFromStorage (fresh malformedHost) = none ∧ construct malformedHost = none := by
  refine ⟨rfl, by decide, by decide⟩

/-- C14 as amended: for every stored value that is absent, empty or an object holding
any subset of the five settings fields, `loadFromStorage` returns and leaves the defaults
(25, 5, 15, true, true) with exactly the fields present in the object overriding them,
an absent or empty value leaving all five; on a text that is no JSON it leaves by the
exception of `JSON.parse`, and so does the constructor. -/
theorem loadFromStorage_merges (h : Host) :
    (h.storage.pomodoroSettings = none ∨ h.storage.pomodoroSettings = some .empty →
        ∃ t, loadFromStorage (fresh h) = some t ∧ t.settings = defaultSettings) ∧
      (∀ o, h.storage.pomodoroSettings = some (.object o) →
        ∃ t, loadFromStorage (fresh h) = some t ∧
          t.settings.pomodoroTime = o.pomodoroTime.getD (.num (.int 25)) ∧
          t.settings.shortBreakTime = o.shortBreakTime.getD (.num (.int 5)) ∧
          t.settings.longBreakTime = o.longBreakTime.getD (.num (.int 15)) ∧
          t.settings.soundEnabled = o.soundEnabled.getD true ∧
          t.settings.notificationEnabled = o.notificationEnabled.getD true) ∧
      (h.storage.pomodoroSettings = some .malformed →
        loadFromStorage (fresh h) = none ∧ construct h = none) := by
  refine ⟨fun hs => ?_, fun o hs => ?_, fun hs => ?_⟩
  · obtain ⟨t, ht, h1, -⟩ := loadFromStorage_some (fresh h)
      (by rcases hs with hs | hs <;> simp [fresh, hs])
    refine ⟨t, ht, ?_⟩
    rw [h1]
    rcases hs with hs | hs <;> simp [fresh, hs, loadedSettings]
  · obtain ⟨t, ht, h1, -⟩ := loadFromStorage_some (fresh h) (by simp [fresh, hs])
    have e : t.settings = mergeSettings defaultSettings o := by
      rw [h1]; simp [fresh, hs, loadedSettings]
    refine ⟨t, ht, ?_⟩
    rw [e]
    exact ⟨rfl, rfl, rfl, rfl, rfl⟩
  · have hl := loadFromStorage_malformed (fresh h) (by simp [fresh, hs])
    exact ⟨hl, by simp [construct, init, hl]⟩

/-- A stored object that holds the focus time only: ten minutes of focus, the other
four defaults (C14 as amended, at a value). -/
theorem loadFromStorage_merges_witness :
    focusOnlyHost.storage.pomodoroSettings = some (.object focusOnly) ∧
      ∃ t, loadFromStorage (fresh focusOnlyHost) = some t ∧
        t.settings.pomodoroTime = focusOnly.pomodoroTime.getD (.num (.int 25)) ∧
        t.settings.shortBreakTime = focusOnly.shortBreakTime.getD (.num (.int 5)) ∧
        t.settings.longBreakTime = focusOnly.longBreakTime.getD (.num (.int 15)) ∧
        t.settings.soundEnabled = focusOnly.soundEnabled.getD true ∧
        t.settings.notificationEnabled = focusOnly.notificationEnabled.getD true :=
  ⟨rfl, (loadFromStorage_merges focusOnlyHost).2.1 focusOnly rfl⟩

/-- C15 fails as stated: the stored count `abc` leaves `pomodoroCount` at `NaN`, and the
stored count `-3x` leaves it at -3. -/
theorem malformed_count_not_zero :
    ((construct (countHost "abc")).map fun s => s.pomodoroCount) = some .nan ∧
      ((construct (countHost "-3x")).map fun s => s.pomodoroCount) = some (.int (-3)) ∧
      parseInt "abc" = .nan ∧ parseInt "-3x" = .int (-3) := by
  refine ⟨by decide, by decide, by decide, by decide⟩

/-- C15 as amended: when the settings text does not make `JSON.parse` throw,
`loadFromStorage` on the fields of the constructor returns; an absent or empty stored
count leaves `pomodoroCount` at 0, and every other stored text that `parseInt` reads as
`NaN` or as an integer up to `2^53` in absolute value leaves it at `parseInt` of the text,
which is `n` for the decimal text of a natural number `n <= 2^53` and may be `NaN` or
negative for other texts. -/
theorem loadFromStorage_count (h : Host)
    (hs : h.storage.pomodoroSettings ≠ some .malformed) :
    ∃ t, loadFromStorage (fresh h) = some t ∧
      (h.storage.pomodoroCount = none → t.pomodoroCount = .int 0) ∧
      (h.storage.pomodoroCount = some "" → t.pomodoroCount = .int 0) ∧
      (∀ text, h.storage.pomodoroCount = some text → text.isEmpty = false →
        (parseInt text).isSafe → t.pomodoroCount = parseInt text) ∧
      (∀ n : Nat, n ≤ 2 ^ 53 → h.storage.pomodoroCount = some (toString n) →
        t.pomodoroCount = .int n) := by
  obtain ⟨t, ht, -, h2, -⟩ := loadFromStorage_some (fresh h) (by simpa [fresh] using hs)
  have e : t.pomodoroCount = loadedCount (.int 0) h.storage.pomodoroCount := h2
  refine ⟨t, ht, fun hc => ?_, fun hc => ?_, fun text hc hne _ => ?_, fun n hn hc => ?_⟩
  · rw [e, hc]; rfl
  · rw [e, hc]; rfl
  · rw [e, hc]; simp [loadedCount, hne]
  · rw [e, hc]
    have h1 := toText_not_empty n
    have h2 := parseInt_toText n hn
    have e' : (Num.int n).toText = toString n := rfl
    rw [e'] at h1 h2
    simp [loadedCount, h1, h2]

/-- The stored count `7`, and the stored count `9007199254740993`, which is read as the
double `9007199254740992` (C15 as amended, at two values). -/
theorem loadFromStorage_count_witness :
    (countHost "7").storage.pomodoroSettings ≠ some .malformed ∧
      (parseInt "7").isSafe ∧ (parseInt "9007199254740993").isSafe ∧
      (∃ t, loadFromStorage (fresh (countHost "7")) = some t ∧ t.pomodoroCount = .int 7) ∧
      ∃ t, loadFromStorage (fresh (countHost "9007199254740993")) = some t ∧
        t.pomodoroCount = .int 9007199254740992 := by
  refine ⟨by decide, by decide, by decide, ?_, ?_⟩
  · obtain ⟨t, ht, -, -, h3, -⟩ := loadFromStorage_count (countHost "7") (by decide)
    exact ⟨t, ht, (h3 "7" rfl (by decide) (by decide)).trans (by decide)⟩
  · obtain ⟨t, ht, -, -, h3, -⟩ :=
      loadFromStorage_count (countHost "9007199254740993") (by decide)
    exact ⟨t, ht, (h3 "9007199254740993" rfl (by decide) (by decide)).trans (by decide)⟩

/-- C16 fails as stated: the count `10^21` is stored as the text `1e+21`, the exponent
form `toString()` writes from `10^21` on, and a fresh engine constructed over that
storage reads it with `parseInt` as 1. -/
theorem huge_count_stored_as_exponent :
    ((construct (countHost "1000000000000000000000")).map fun t => t.pomodoroCount) =
        some (.int (10 ^ 21)) ∧
      hugeCount.pomodoroCount = .int (10 ^ 21) ∧
      (saveToStorage hugeCount).storage.pomodoroCount = some "1e+21" ∧
      ((construct (reloadHost hugeCount)).map fun t => t.pomodoroCount) = some (.int 1) := by
  refine ⟨by decide, by decide, by decide, by decide⟩

/-- C16 as amended: for settings with integer durations and a count `c` that is a double
with `0 <= c < 10^21`, `saveToStorage` writes the settings under `pomodoroSettings` and
the text `c.toString()` under `pomodoroCount` (the decimal digits of `c` when
`c <= 2^53`), and a fresh engine constructed over that storage, like `loadFromStorage` on
the fields of the constructor, holds settings equal to the saved ones and `pomodoroCount`
equal to `c`, the count 0 included. -/
theorem storage_roundtrip (s : State) (h : Host) (p q r : Int) (c : Nat)
    (hp : s.settings.pomodoroTime = .num (.int p))
    (hq : s.settings.shortBreakTime = .num (.int q))
    (hr : s.settings.longBreakTime = .num (.int r))
    (hc : s.pomodoroCount = .int c) (hdouble : roundToDouble c = c) (hlt : c < 10 ^ 21)
    (hst : h.storage = (saveToStorage s).storage) :
    h.storage.pomodoroSettings = some (stringifySettings s.settings) ∧
      h.storage.pomodoroCount = some (Num.int c).numberText ∧
      (c ≤ 2 ^ 53 → h.storage.pomodoroCount = some (toString c)) ∧
      (∃ t, loadFromStorage (fresh h) = some t ∧ t.settings = s.settings ∧
        t.pomodoroCount = .int c) ∧
      ∃ t, construct h = some t ∧ t.settings = s.settings ∧ t.pomodoroCount = .int c := by
  have h1 : h.storage.pomodoroSettings = some (stringifySettings s.settings) := by
    rw [hst]; rfl
  have h2 : h.storage.pomodoroCount = some (Num.int c).numberText := by
    rw [hst]; simp only [saveToStorage, hc]
  have hm : h.storage.pomodoroSettings ≠ some .malformed := by
    rw [h1]; simp [stringifySettings]
  have hset : loadedSettings defaultSettings h.storage.pomodoroSettings = s.settings := by
    rw [h1]
    cases hs : s.settings with
    | mk a b cc d e =>
      rw [hs] at hp hq hr
      simp only at hp hq hr
      subst hp hq hr
      rfl
  have hcount : loadedCount (.int 0) h.storage.pomodoroCount = .int c := by
    rw [h2]
    obtain ⟨n1, n2⟩ := numberText_roundtrip c hdouble hlt
    simp [loadedCount, n1, n2]
  refine ⟨h1, h2, fun hs => by rw [h2, numberText_of_le c hs], ?_, ?_⟩
  · obtain ⟨t, ht, e1, e2, -⟩ := loadFromStorage_some (fresh h) (by simpa [fresh] using hm)
    exact ⟨t, ht, e1.trans hset, e2.trans hcount⟩
  · obtain ⟨t, ht, e1, e2, -⟩ := construct_some h hm
    exact ⟨t, ht, e1.trans hset, e2.trans hcount⟩

/-- The engine of a fresh page with one minute of focus saved and no pomodoro counted,
stored and loaded again, and the engine with `2^60` pomodoros counted, whose count is
stored as `1152921504606847000` and loaded as `2^60` (C16 as amended, at two states). -/
theorem storage_roundtrip_witness :
    ((saveSettings minuteForm freshPage).settings.pomodoroTime = .num (.int 1) ∧
      (saveSettings minuteForm freshPage).pomodoroCount = .int (0 : Nat) ∧
      roundToDouble 0 = 0 ∧ 0 < 10 ^ 21 ∧
      (reloadHost (saveSettings minuteForm freshPage)).storage =
        (saveToStorage (saveSettings minuteForm freshPage)).storage ∧
      (reloadHost (saveSettings minuteForm freshPage)).storage.pomodoroCount = some "0" ∧
      ∃ t, construct (reloadHost (saveSettings minuteForm freshPage)) = some t ∧
        t.settings = (saveSettings minuteForm freshPage).settings ∧
        t.pomodoroCount = .int (0 : Nat)) ∧
      largeCount.pomodoroCount = .int (1152921504606846976 : Nat) ∧
      roundToDouble 1152921504606846976 = 1152921504606846976 ∧
      1152921504606846976 < 10 ^ 21 ∧
      (reloadHost largeCount).storage.pomodoroCount = some "1152921504606847000" ∧
      ∃ t, construct (reloadHost largeCount) = some t ∧
        t.settings = largeCount.settings ∧
        t.pomodoroCount = .int (1152921504606846976 : Nat) :=
  ⟨⟨by decide, by decide, by decide, by decide, rfl, by decide,
    (storage_roundtrip (saveSettings minuteForm freshPage)
      (reloadHost (saveSettings minuteForm freshPage)) 1 5 15 0
      (by decide) (by decide) (by decide) (by decide) (by decide) (by decide) rfl).2.2.2.2⟩,
    by decide, by decide, by decide, by decide,
    (storage_roundtrip largeCount (reloadHost largeCount) 25 5 15 1152921504606846976
      (by decide) (by decide) (by decide) (by decide) (by decide) (by decide) rfl).2.2.2.2⟩

/-- C13: in a browser with nothing stored, notifications granted and Web Audio present,
the constructed engine has the default settings and is in mode `pomodoro`; `start()` and
1500 ticks of its interval end with `pomodoroCount == 1`, `isRunning == false` and
`timeLeft == 0`, and the trace ends with the display update `00:00`, then the effects of
completion: the texts of `pause`, the count, the plain rest notification, the tone and
the complete label. -/
theorem default_focus_scenario (h : Host)
    (hset : h.storage.pomodoroSettings = none) (hcnt : h.storage.pomodoroCount = none)
    (hapi : h.notificationApi = true) (hperm : h.permission = .granted)
    (haudio : h.audioApi = true) :
    ∃ s0 t before, construct h = some s0 ∧ s0.settings = defaultSettings ∧
      s0.currentMode = "pomodoro" ∧ s0.timeLeft = .int 1500 ∧
      fireN 1 1500 (start s0) = some t ∧
      t.pomodoroCount = .int 1 ∧ t.isRunning = false ∧ t.timeLeft = .int 0 ∧
      t.effects = before ++
        [.timerDisplay "00:00", .title "00:00 - 番茄钟", .startPauseText "继续",
          .modeText (some "已暂停"), .countText "1",
          .notification "番茄完成！" "休息一下吧！", .tone, .modeText (some "番茄完成！")] := by
  obtain ⟨s0, hc, h1, h2, h3, h4, h5, h6, h7, h8, -, h10, h11, h12⟩ :=
    construct_some h (by simp [hset])
  have hs0 : s0.settings = defaultSettings := by rw [h1, hset]; rfl
  have hc0 : s0.pomodoroCount = .int 0 := by rw [h2, hcnt]; rfl
  obtain ⟨u, hu, r1, -, r3, r4, r5, r6, -, -⟩ :=
    fireN_countdown 1 1499 (start s0) 1500 (by simp [h7, h8]) (by simpa using h4)
      (by decide)
  obtain ⟨g1, g2, g3⟩ := fireN_host 1 1499 (start s0) u hu
  have hu1 : u.timeLeft = .int 1 := by rw [r1]; rfl
  have hz : u.timeLeft.dec.leZero = true := by rw [hu1]; rfl
  have hmode : u.currentMode = "pomodoro" := by rw [r3]; simpa using h3
  have hsett : u.settings = defaultSettings := by rw [r4]; simpa using hs0
  have hcount : u.pomodoroCount = .int 0 := by rw [r5]; simpa using hc0
  have hnapi : u.notificationApi = true := by
    rw [g1]; show s0.notificationApi = true; rw [h10, hapi]
  have hgrant : u.permission = .granted := by
    rw [g2]; show s0.permission = .granted; rw [h11, hperm]
  have haud : u.audioApi = true := by
    rw [g3]; show s0.audioApi = true; rw [h12, haudio]
  refine ⟨s0, tick u, u.effects, hc, hs0, h3, h4, ?_, ?_, ?_, ?_, ?_⟩
  · rw [show 1500 = 1499 + 1 from rfl, fireN_add, hu]
    simp [fireN, fire, r6, h7, h8]
  · rw [tick_pomodoroCount, if_pos ⟨hz, hmode⟩, hcount]; rfl
  · rw [tick_isRunning, if_pos hz]
  · rw [tick_timeLeft, hu1]; rfl
  · rw [tick_completes u hz, complete_effects, completeCount_effects]
    simp only [pause_effects, pause_currentMode, pause_pomodoroCount, pause_shows,
      updateDisplay_effects, updateDisplay_currentMode, updateDisplay_pomodoroCount,
      updateDisplay_settings, updateDisplay_audioApi, showsNotifications, hmode, hcount, hsett,
      hu1, haud, hnapi, hgrant, getModeCompleteText]
    simp [defaultSettings, Num.dec, Num.inc, Num.mod4IsZero, Num.toText]
    decide

/-- The browser of `bareHost` (C13 at a value). -/
theorem default_focus_scenario_witness :
    bareHost.storage.pomodoroSettings = none ∧ bareHost.storage.pomodoroCount = none ∧
      bareHost.notificationApi = true ∧ bareHost.permission = .granted ∧
      bareHost.audioApi = true ∧
      ∃ s0 t before, construct bareHost = some s0 ∧ s0.settings = defaultSettings ∧
        s0.currentMode = "pomodoro" ∧ s0.timeLeft = .int 1500 ∧
        fireN 1 1500 (start s0) = some t ∧
        t.pomodoroCount = .int 1 ∧ t.isRunning = false ∧ t.timeLeft = .int 0 ∧
        t.effects = before ++
          [.timerDisplay "00:00", .title "00:00 - 番茄钟", .startPauseText "继续",
            .modeText (some "已暂停"), .countText "1",
            .notification "番茄完成！" "休息一下吧！", .tone, .modeText (some "番茄完成！")] :=
  ⟨rfl, rfl, rfl, rfl, rfl, default_focus_scenario bareHost rfl rfl rfl rfl rfl⟩

set_option maxRecDepth 8192 in
/-- C18, the code in a browser with neither `AudioContext` nor `webkitAudioContext`:
with `soundEnabled` true `playSound` produces no tone and leaves by a `TypeError`; a
one-minute focus phase run to its end there stops and counts the pomodoro, and its trace
ends with the count, the notification and the uncaught error, the complete label never
written.  The sibling `showNotification` returns without effect where the Notification
interface is missing. -/
theorem playSound_throws_without_audio :
    lastSecondSilent.settings.soundEnabled = true ∧ lastSecondSilent.audioApi = false ∧
      playSound lastSecondSilent = none ∧
      (((construct silentHost).bind (runAny minuteOps)).map fun t =>
          (t.isRunning, t.pomodoroCount, t.effects.reverse.take 3)) =
        some (false, .int 1,
          [.typeError, .notification "番茄完成！" "休息一下吧！", .countText "1"]) ∧
      showNotification "番茄完成！" "休息一下吧！" { lastSecond with notificationApi := false } =
        { lastSecond with notificationApi := false } := by
  refine ⟨by decide, by decide, by decide, by decide, by decide⟩

/-- Three ticks of a started engine leave the default settings (C17 at a state). -/
theorem settings_frame_witness :
    fireN 1 3 (start freshPage) = some (tick (tick (tick (start freshPage)))) ∧
      (tick (tick (tick (start freshPage)))).settings = defaultSettings ∧
      (complete (start freshPage)).settings = defaultSettings :=
  ⟨by decide,
    ((settings_frame (start freshPage) "pomodoro" true minuteForm).2.2.2.2.2.2.2.1
      1 3 _ (by decide)).trans (by decide),
    (settings_frame (start freshPage) "pomodoro" true minuteForm).2.2.2.2.2.2.1.trans
      (by decide)⟩

end ZenTimer
